import Mathlib

/-!
Verification development for the persona-kit adaptive trait and suggestion
engine.  The Python services under `src/services` and `src/repositories`
are shallowly embedded: Python numbers (int/float) are modelled as exact
unnormalised fractions (`PyNum`), JSON-like dynamic values as `Val`,
dictionaries as association lists with unique keys, and raising code as
`Except PyErr`.  Every definition is translated from the corresponding
source function, named after it where possible.
-/

/-- Exact fraction model of a Python number (int or float).  Arithmetic in
the embedded code is exact rational arithmetic; `den` is kept positive at
every construction site. -/
structure PyNum where
  num : Int
  den : Nat
deriving Repr, DecidableEq

/-- Denotation of a `PyNum` as a rational, used to state theorems. -/
def PyNum.toRat (a : PyNum) : ℚ := (a.num : ℚ) / (a.den : ℚ)

/-- Embed an integer literal. -/
def PyNum.ofInt (n : Int) : PyNum := ⟨n, 1⟩

def PyNum.add (a b : PyNum) : PyNum :=
  ⟨a.num * b.den + b.num * a.den, a.den * b.den⟩

def PyNum.sub (a b : PyNum) : PyNum :=
  ⟨a.num * b.den - b.num * a.den, a.den * b.den⟩

def PyNum.mul (a b : PyNum) : PyNum := ⟨a.num * b.num, a.den * b.den⟩

def PyNum.neg (a : PyNum) : PyNum := ⟨-a.num, a.den⟩

/-- Python `a <= b` on numbers (cross multiplication; dens positive). -/
def PyNum.ble (a b : PyNum) : Bool := a.num * (b.den : Int) ≤ b.num * (a.den : Int)

/-- Python `a < b` on numbers. -/
def PyNum.blt (a b : PyNum) : Bool := a.num * (b.den : Int) < b.num * (a.den : Int)

/-- Python `a == b` on numbers (value equality, `1 == 1.0` is true). -/
def PyNum.beq (a b : PyNum) : Bool := a.num * (b.den : Int) = b.num * (a.den : Int)

/-- Python `max(a, b)`: returns `a` when `a >= b`, else `b`. -/
def PyNum.pymax (a b : PyNum) : PyNum := if PyNum.ble b a then a else b

/-- Python `min(a, b)`: returns `a` when `a <= b`, else `b`. -/
def PyNum.pymin (a b : PyNum) : PyNum := if PyNum.ble a b then a else b

/-- Python `a / b`: true division; `ZeroDivisionError` when `b == 0`.
The sign of the divisor's numerator is moved into the result numerator so
that the denominator stays a natural number. -/
def PyNum.div (a b : PyNum) : Option PyNum :=
  if b.num = 0 then none
  else some ⟨(if b.num < 0 then -(a.num * b.den) else a.num * b.den),
             a.den * b.num.natAbs⟩

/-- Round-half-to-even of `1000 * a` as an integer, i.e. Python
`round(a, 3)` scaled; the result is returned over denominator 1000. -/
def PyNum.round3 (a : PyNum) : PyNum :=
  let t : Int := 1000 * a.num
  let d : Int := (a.den : Int)
  let f : Int := t.fdiv d
  let r2 : Int := 2 * (t - f * d)
  let z : Int :=
    if r2 < d then f
    else if d < r2 then f + 1
    else if f % 2 = 0 then f else f + 1
  ⟨z, 1000⟩

/-- A `PyNum` is well formed when its denominator is positive. -/
def PyNum.WF (a : PyNum) : Prop := 0 < a.den

instance (a : PyNum) : Decidable a.WF :=
  inferInstanceAs (Decidable (0 < a.den))

/-- Python exception classes observed by the embedded code. -/
inductive PyErr where
  | typeError
  | keyError
  | valueError
  | attributeError
  | zeroDivisionError
  | recursionError
deriving Repr, DecidableEq

/-- Dynamic (JSON-like) Python value: `None`, `bool`, `int`/`float`
(as `PyNum`), `str`, `list`, `dict` with string keys.  This covers every
value the embedded services construct or inspect. -/
inductive Val where
  | vNone
  | vBool (b : Bool)
  | vNum (q : PyNum)
  | vStr (s : String)
  | vList (xs : List Val)
  | vDict (d : List (String × Val))
deriving Repr

mutual

/-- Python `==` between the embedded values.  Numbers compare by value
(`1 == 1.0`, `True == 1`).  Dictionaries are compared pointwise in listed
order; Python dict equality is key-based and order-insensitive, which
agrees with the pointwise comparison whenever the two dicts list their
keys in the same order — the only situation the embedded code produces. -/
def Val.beq : Val → Val → Bool
  | .vNone, .vNone => true
  | .vBool a, .vBool b => a == b
  | .vBool a, .vNum b => PyNum.beq ⟨if a then 1 else 0, 1⟩ b
  | .vNum a, .vBool b => PyNum.beq a ⟨if b then 1 else 0, 1⟩
  | .vNum a, .vNum b => PyNum.beq a b
  | .vStr a, .vStr b => a == b
  | .vList xs, .vList ys => Val.beqList xs ys
  | .vDict xs, .vDict ys => Val.beqDict xs ys
  | _, _ => false

/-- Elementwise Python `==` on lists. -/
def Val.beqList : List Val → List Val → Bool
  | [], [] => true
  | x :: xs, y :: ys => Val.beq x y && Val.beqList xs ys
  | _, _ => false

/-- Pointwise Python `==` on dict entry lists (see `Val.beq`). -/
def Val.beqDict : List (String × Val) → List (String × Val) → Bool
  | [], [] => true
  | (k, v) :: xs, (k', v') :: ys => k == k' && Val.beq v v' && Val.beqDict xs ys
  | _, _ => false

end

/-- Association list standing for a Python dict with string keys. -/
abbrev Dict := List (String × Val)

/-- `d.get(k)` / `d[k]` lookup, first matching key. -/
def dictGet (d : Dict) (k : String) : Option Val :=
  match d with
  | [] => none
  | (k', v) :: rest => if k == k' then some v else dictGet rest k

/-- `d.get(k, default)`. -/
def dictGetD (d : Dict) (k : String) (dflt : Val) : Val :=
  (dictGet d k).getD dflt

/-- `k in d` for a dict. -/
def dictContains (d : Dict) (k : String) : Bool := (dictGet d k).isSome

/-- `d[k] = v`: update in place when the key exists, append otherwise
(Python dicts preserve insertion order). -/
def dictSet (d : Dict) (k : String) (v : Val) : Dict :=
  match d with
  | [] => [(k, v)]
  | (k', v') :: rest =>
      if k == k' then (k', v) :: rest else (k', v') :: dictSet rest k v

/-- `list(d.keys())`. -/
def dictKeys (d : Dict) : List String := d.map Prod.fst

/-- Python truthiness of a value. -/
def pyTruthy : Val → Bool
  | .vNone => false
  | .vBool b => b
  | .vNum q => !(PyNum.beq q ⟨0, 1⟩)
  | .vStr s => !(s == "")
  | .vList xs => !xs.isEmpty
  | .vDict d => !d.isEmpty

/-- `isinstance(v, int | float)` view of a value (`bool` is an `int` in
Python), returning the numeric content when it applies. -/
def pyNumView : Val → Option PyNum
  | .vNum q => some q
  | .vBool b => some ⟨if b then 1 else 0, 1⟩
  | _ => none

/-- Decimal digit of a character. -/
def digitOfChar (c : Char) : Option Nat :=
  if '0' ≤ c ∧ c ≤ '9' then some (c.toNat - 48) else none

/-- Parse an unsigned run of decimal digits (value, digit count, rest). -/
def parseDigits : List Char → Nat → Nat → (Nat × Nat × List Char)
  | [], acc, cnt => (acc, cnt, [])
  | c :: rest, acc, cnt =>
      match digitOfChar c with
      | some dg => parseDigits rest (10 * acc + dg) (cnt + 1)
      | none => (acc, cnt, c :: rest)

/-- `float(s)` for a plain decimal literal with optional sign and
fraction part.  Python additionally accepts whitespace, exponents,
`inf`/`nan` and underscores; those are not modelled — such strings are
treated as a `ValueError`, exactly like any other unparsable string. -/
def pyParseFloat (s : String) : Option PyNum :=
  let chars := s.toList
  let signed : Bool × List Char :=
    match chars with
    | '-' :: rest => (true, rest)
    | '+' :: rest => (false, rest)
    | _ => (false, chars)
  let (ipart, icnt, rest1) := parseDigits signed.2 0 0
  match rest1 with
  | [] =>
      if icnt = 0 then none
      else some ⟨(if signed.1 then -(ipart : Int) else (ipart : Int)), 1⟩
  | '.' :: rest2 =>
      let (fpart, fcnt, rest3) := parseDigits rest2 0 0
      if rest3 ≠ [] then none
      else if icnt = 0 ∧ fcnt = 0 then none
      else
        let numer : Int := (ipart : Int) * (10 ^ fcnt : Nat) + (fpart : Int)
        some ⟨(if signed.1 then -numer else numer), 10 ^ fcnt⟩
  | _ => none

/-- `str.split(".")`. -/
def splitDotAux : List Char → List Char → List String
  | [], acc => [String.mk acc.reverse]
  | c :: rest, acc =>
      if c = '.' then String.mk acc.reverse :: splitDotAux rest []
      else splitDotAux rest (c :: acc)

/-- Split a string on the dot separator, as `path.split(".")` does. -/
def pySplitDot (s : String) : List String := splitDotAux s.toList []

/-- Substring search for Python `sub in s` on strings. -/
def strFindSub (pat : List Char) : List Char → Bool
  | [] => pat.isEmpty
  | c :: rest => pat.isPrefixOf (c :: rest) || strFindSub pat rest

/-- Python `sub in s` for strings. -/
def pyStrContains (s sub : String) : Bool := strFindSub sub.toList s.toList

/-- One fuelled pass of `str.replace`; the fuel is the string length,
which suffices for the nonempty patterns the embedded code uses. -/
def replaceFuel (pat rep : List Char) : Nat → List Char → List Char
  | 0, s => s
  | _ + 1, [] => []
  | fuel + 1, c :: rest =>
      if pat.isPrefixOf (c :: rest) then
        rep ++ replaceFuel pat rep fuel ((c :: rest).drop pat.length)
      else c :: replaceFuel pat rep fuel rest

/-- Python `s.replace(pat, rep)` for a nonempty pattern (every call site
in the embedded code passes a `{...}` placeholder, which is nonempty). -/
def pyStrReplace (s pat rep : String) : String :=
  String.mk (replaceFuel pat.toList rep.toList s.toList.length s.toList)

/-- Python `str.capitalize()` (ASCII case mapping). -/
def pyCapitalize (s : String) : String :=
  match s.toList with
  | [] => ""
  | c :: rest => String.mk (c.toUpper :: rest.map Char.toLower)

/-- Python `str.lower()` (ASCII case mapping). -/
def pyLower (s : String) : String := String.mk (s.toList.map Char.toLower)

/-- Decimal digits of a natural number, via fuel. -/
def natToStrAux : Nat → Nat → List Char → List Char
  | 0, _, acc => acc
  | fuel + 1, n, acc =>
      let d := Char.ofNat (48 + n % 10)
      if n < 10 then d :: acc else natToStrAux fuel (n / 10) (d :: acc)

/-- Python `str(n)` for a natural number. -/
def natToStr (n : Nat) : String := String.mk (natToStrAux (n + 1) n [])

/-- Python `str(z)` for an integer. -/
def intToStr (z : Int) : String :=
  if z < 0 then "-" ++ natToStr z.natAbs else natToStr z.natAbs

/-- The `f"{h:02d}"` two-digit format used for peak-hour ranges. -/
def fmt02d (h : Nat) : String :=
  if h < 10 then "0" ++ natToStr h else natToStr h

/-- Round-half-to-even of `10 * a` as an integer (for `f"{x:.1f}"`). -/
def roundScaled10 (a : PyNum) : Int :=
  let t : Int := 10 * a.num
  let d : Int := (a.den : Int)
  let f : Int := t.fdiv d
  let r2 : Int := 2 * (t - f * d)
  if r2 < d then f
  else if d < r2 then f + 1
  else if f % 2 = 0 then f else f + 1

/-- The `f"{x:.1f}"` one-decimal format used by `minutes_to_hours`. -/
def fmt1f (a : PyNum) : String :=
  let z := roundScaled10 a
  let sign := if z < 0 then "-" else ""
  sign ++ natToStr (z.natAbs / 10) ++ "." ++ natToStr (z.natAbs % 10)

/-- Python `str(v)`.  Numeric values are rendered as integers when they
are integer-valued; the shortest-repr form Python uses for non-integer
floats is not modelled (no verified claim evaluates it), such values
render as an exact fraction.  `str` of lists/dicts is likewise
unreachable in the verified claims and rendered as a placeholder. -/
def pyStr : Val → String
  | .vNone => "None"
  | .vBool b => if b then "True" else "False"
  | .vNum q =>
      if q.den = 1 then intToStr q.num
      else if (q.den : Int) ∣ q.num then intToStr (q.num / (q.den : Int))
      else intToStr q.num ++ "/" ++ natToStr q.den
  | .vStr s => s
  | .vList _ => "<list>"
  | .vDict _ => "<dict>"

/-- Parse exactly two decimal digits. -/
def parse2d : List Char → Option (Nat × List Char)
  | a :: b :: rest => do
      let x ← digitOfChar a
      let y ← digitOfChar b
      pure (10 * x + y, rest)
  | _ => none

/-- Parse exactly four decimal digits. -/
def parse4d : List Char → Option (Nat × List Char)
  | a :: b :: c :: d :: rest => do
      let x ← digitOfChar a
      let y ← digitOfChar b
      let z ← digitOfChar c
      let w ← digitOfChar d
      pure (1000 * x + 100 * y + 10 * z + w, rest)
  | _ => none

/-- Accept an optional timezone suffix (`Z`, `+HH:MM` or `-HH:MM`);
the source replaces a trailing `Z` by `+00:00` before parsing. -/
def parseTzSuffix : List Char → Bool
  | [] => true
  | ['Z'] => true
  | s :: rest =>
      if s = '+' ∨ s = '-' then
        match parse2d rest with
        | some (hh, ':' :: rest2) =>
            match parse2d rest2 with
            | some (mm, []) => hh ≤ 23 ∧ mm ≤ 59
            | _ => false
        | _ => false
      else false

/-- `datetime.fromisoformat` on the subset of ISO-8601 strings the
repository produces: `YYYY-MM-DD`, optionally followed by `T` or a space
and `HH:MM` or `HH:MM:SS`, optionally followed by a timezone suffix.
Fractional seconds and other ISO forms accepted by Python are not
modelled; they would only add further accepted strings, and no verified
claim depends on them.  Returns `(year, month, day, hour)`. -/
def parseIsoDatetime (s : String) : Option (Nat × Nat × Nat × Nat) := do
  let (y, r1) ← parse4d s.toList
  match r1 with
  | '-' :: r2 => do
      let (mo, r3) ← parse2d r2
      match r3 with
      | '-' :: r4 => do
          let (dy, r5) ← parse2d r4
          if ¬ (1 ≤ mo ∧ mo ≤ 12 ∧ 1 ≤ dy ∧ dy ≤ 31) then none
          else
            match r5 with
            | [] => pure (y, mo, dy, 0)
            | sep :: r6 =>
                if sep = 'T' ∨ sep = ' ' then do
                  let (hh, r7) ← parse2d r6
                  match r7 with
                  | ':' :: r8 => do
                      let (mi, r9) ← parse2d r8
                      let ok ←
                        match r9 with
                        | ':' :: r10 =>
                            match parse2d r10 with
                            | some (ss, r11) =>
                                if ss ≤ 59 then some (parseTzSuffix r11) else none
                            | none => none
                        | rest => some (parseTzSuffix rest)
                      if ok ∧ hh ≤ 23 ∧ mi ≤ 59 then pure (y, mo, dy, hh) else none
                  | _ => none
                else none
      | _ => none
  | _ => none

/-- English weekday name of a Gregorian date (Zeller's congruence), as
Python's `strftime("%A")` produces. -/
def weekdayName (y mo d : Nat) : String :=
  let m' := if mo ≤ 2 then mo + 12 else mo
  let y' := if mo ≤ 2 then y - 1 else y
  let k := y' % 100
  let j := y' / 100
  let h := (d + (13 * (m' + 1)) / 5 + k + k / 4 + j / 4 + 5 * j) % 7
  match h with
  | 0 => "Saturday"
  | 1 => "Sunday"
  | 2 => "Monday"
  | 3 => "Tuesday"
  | 4 => "Wednesday"
  | 5 => "Thursday"
  | _ => "Friday"

/-- The two facts about "now" the rule engine reads from a datetime:
`current_time.hour` and `current_time.strftime("%A")`. -/
structure PyTime where
  hour : Nat
  weekday : String
deriving Repr, DecidableEq

/-- `src/models/observation.py` `ObservationType`. -/
inductive ObservationType where
  | work_session
  | user_input
  | calendar_event
deriving Repr, DecidableEq

/-- `TraitExtractor._parse_hour`: parse the hour from an ISO timestamp
string; any parse failure (or a value without an `hour` attribute) is
caught and yields `None`. -/
def parse_hour : Val → Option Nat
  | .vStr s => (parseIsoDatetime s).map (fun t => t.2.2.2)
  | _ => none

/-- Python `v >= n` for a dynamic left operand and an int literal:
numbers (including bools) compare numerically, anything else raises
`TypeError`. -/
def pyGeInt (v : Val) (n : Int) : Except PyErr Bool :=
  match pyNumView v with
  | some q => .ok (PyNum.ble (PyNum.ofInt n) q)
  | none => .error .typeError

/-- A fresh trait entry `{"value": v, "confidence": c, "sample_size": 1}`. -/
def traitEntry (v : Val) (cnum : Int) (cden : Nat) : Val :=
  .vDict [("value", v), ("confidence", .vNum ⟨cnum, cden⟩),
          ("sample_size", .vNum ⟨1, 1⟩)]

/-- `TraitExtractor._extract_work_session_traits`. -/
def extract_work_session_traits (content : Dict) : Except PyErr Dict := do
  let traits : Dict := []
  -- duration_minutes → work.focus_duration (walrus: truthy check)
  let durationVal := dictGetD content "duration_minutes" .vNone
  let traits :=
    if pyTruthy durationVal then
      dictSet traits "work.focus_duration" (traitEntry durationVal 9 10)
    else traits
  -- start + productivity_score → peak hours and energy level
  let startVal := dictGetD content "start" .vNone
  let prodVal := dictGetD content "productivity_score" .vNone
  let traits ←
    if pyTruthy startVal ∧ pyTruthy prodVal then
      match parse_hour startVal with
      | some hour => do
          let isHigh ← pyGeInt prodVal 4
          let traits :=
            if isHigh then
              dictSet traits "work.peak_hours"
                (traitEntry (.vList [.vStr (fmt02d hour ++ ":00-" ++
                  fmt02d (hour + 1) ++ ":00")]) 7 10)
            else traits
          let isMed ← pyGeInt prodVal 3
          let energy := if isHigh then "high" else if isMed then "medium" else "low"
          pure (dictSet traits "current_state.energy_level"
            (traitEntry (.vStr energy) 6 10))
      | none => pure traits
    else pure traits
  -- interruptions → work.task_switching_cost (walrus: truthy check)
  let interVal := dictGetD content "interruptions" .vNone
  if pyTruthy interVal then do
    let isHigh ← pyGeInt interVal 3
    let isMed ← pyGeInt interVal 1
    let cost := if isHigh then "high" else if isMed then "medium" else "low"
    pure (dictSet traits "work.task_switching_cost" (traitEntry (.vStr cost) 7 10))
  else
    pure traits

/-- `TraitExtractor._extract_wizard_traits`. -/
def extract_wizard_traits (responses : Dict) : Except PyErr Dict := do
  let traits : Dict := []
  let productiveTime := dictGetD responses "most_productive" .vNone
  let traits :=
    if pyTruthy productiveTime then
      let ranges : Option (List String) :=
        if Val.beq productiveTime (.vStr "morning") then some ["06:00-12:00"]
        else if Val.beq productiveTime (.vStr "afternoon") then some ["12:00-18:00"]
        else if Val.beq productiveTime (.vStr "evening") then some ["18:00-23:00"]
        else if Val.beq productiveTime (.vStr "varies") then
          some ["09:00-11:00", "14:00-16:00"]
        else none
      match ranges with
      | some rs =>
          let v := Val.vList (rs.map Val.vStr)
          dictSet (dictSet traits "work.energy_patterns" (traitEntry v 8 10))
            "work.peak_hours" (traitEntry v 8 10)
      | none => traits
    else traits
  let focusDuration := dictGetD responses "focus_duration" .vNone
  let traits :=
    if pyTruthy focusDuration then
      let minutes : Option Int :=
        if Val.beq focusDuration (.vStr "30min") then some 30
        else if Val.beq focusDuration (.vStr "1hr") then some 60
        else if Val.beq focusDuration (.vStr "2hr+") then some 120
        else none
      match minutes with
      | some m => dictSet traits "work.focus_duration" (traitEntry (.vNum ⟨m, 1⟩) 9 10)
      | none => traits
    else traits
  let disruptor := dictGetD responses "flow_disruptor" .vNone
  let traits :=
    if pyTruthy disruptor then
      let cost : String :=
        if Val.beq disruptor (.vStr "meetings") then "high"
        else if Val.beq disruptor (.vStr "slack") then "medium"
        else if Val.beq disruptor (.vStr "context-switches") then "high"
        else if Val.beq disruptor (.vStr "email") then "low"
        else "medium"
      dictSet traits "work.task_switching_cost" (traitEntry (.vStr cost) 8 10)
    else traits
  pure traits

/-- `TraitExtractor._extract_user_input_traits`. -/
def extract_user_input_traits (content : Dict) : Except PyErr Dict := do
  let responseType := dictGetD content "type" .vNone
  if pyTruthy responseType then
    if Val.beq responseType (.vStr "wizard_response") then
      match dictGetD content "responses" (.vDict []) with
      | .vDict responses => extract_wizard_traits responses
      | _ =>
          -- responses.get(...) on a non-dict raises AttributeError
          .error .attributeError
    else if Val.beq responseType (.vStr "energy_check") then
      let energy := dictGetD content "energy_level" .vNone
      if pyTruthy energy then
        pure [("current_state.energy_level",
          .vDict [("value", energy), ("confidence", .vNum ⟨1, 1⟩),
                  ("sample_size", .vNum ⟨1, 1⟩)])]
      else pure []
    else pure []
  else pure []

/-- `TraitExtractor._extract_calendar_traits`. -/
def extract_calendar_traits (content : Dict) : Except PyErr Dict := do
  let eventType := dictGetD content "type" .vNone
  if pyTruthy eventType ∧ Val.beq eventType (.vStr "meeting") then do
    let duration := dictGetD content "duration_minutes" (.vNum ⟨60, 1⟩)
    let le30 ← match pyNumView duration with
      | some q => .ok (PyNum.ble q ⟨30, 1⟩)
      | none => .error .typeError
    let le60 ← match pyNumView duration with
      | some q => .ok (PyNum.ble q ⟨60, 1⟩)
      | none => .error .typeError
    let recovery : Int := if le30 then 15 else if le60 then 30 else 45
    pure [("work.meeting_recovery_time", traitEntry (.vNum ⟨recovery, 1⟩) 5 10)]
  else
    pure []

/-- `TraitExtractor.extract_traits`: dispatch on the observation type. -/
def extract_traits (t : ObservationType) (content : Dict) : Except PyErr Dict :=
  match t with
  | .work_session => extract_work_session_traits content
  | .user_input => extract_user_input_traits content
  | .calendar_event => extract_calendar_traits content

/-- Numeric view or `TypeError`: arithmetic on a non-numeric operand in
the merge ends in a `TypeError` in Python (possibly after an intermediate
string repetition); only the error outcome is modelled. -/
def pyNumOrTypeError (v : Val) : Except PyErr PyNum :=
  match pyNumView v with
  | some q => .ok q
  | none => .error .typeError

/-- Hashable values, i.e. values `set()` accepts as elements. -/
def hashableVal : Val → Bool
  | .vNone => true
  | .vBool _ => true
  | .vNum _ => true
  | .vStr _ => true
  | .vList _ => false
  | .vDict _ => false

/-- Deduplicate by Python `==`, keeping first occurrences.  CPython's
`list(set(...))` enumerates in hash order; the embedded definition picks
the first-occurrence order as a canonical representative, and theorems
about merged lists are stated up to membership. -/
def dedupAux : List Val → List Val → List Val
  | [], _ => []
  | x :: rest, seen =>
      if seen.any (fun y => Val.beq y x) then dedupAux rest seen
      else x :: dedupAux rest (x :: seen)

/-- `list(set(xs))` : `TypeError` when some element is unhashable. -/
def pyListSet (xs : List Val) : Except PyErr (List Val) :=
  if xs.all hashableVal then .ok (dedupAux xs []) else .error .typeError

/-- The `# Merge values based on type` block of
`ObservationProcessor._merge_trait_values`: numeric pairs are averaged
by sample weight, list pairs are unioned via `list(set(...))`, anything
else keeps the side with the strictly higher confidence. -/
def merge_value_case (existing_value new_value : Val)
    (existing_samples new_samples total_samples : PyNum)
    (existing_confidence new_confidence : PyNum) : Except PyErr Val :=
  match pyNumView existing_value, pyNumView new_value with
  | some a, some b =>
      -- numeric values: weighted average
      match ((a.mul existing_samples).add (b.mul new_samples)).div total_samples with
      | some q => .ok (Val.vNum q)
      | none => .error .zeroDivisionError
  | _, _ =>
      match existing_value, new_value with
      | .vList xs, .vList ys =>
          -- lists: combine and deduplicate
          (pyListSet (xs ++ ys)).map Val.vList
      | _, _ =>
          -- categorical: take value with higher confidence
          if PyNum.blt existing_confidence new_confidence then .ok new_value
          else .ok existing_value

/-- `ObservationProcessor._merge_trait_values`. -/
def merge_trait_values (existing newv : Dict) : Except PyErr Dict := do
  let existing_confidence ← pyNumOrTypeError (dictGetD existing "confidence" (.vNum ⟨5, 10⟩))
  let new_confidence ← pyNumOrTypeError (dictGetD newv "confidence" (.vNum ⟨5, 10⟩))
  let existing_samples ← pyNumOrTypeError (dictGetD existing "sample_size" (.vNum ⟨1, 1⟩))
  let new_samples ← pyNumOrTypeError (dictGetD newv "sample_size" (.vNum ⟨1, 1⟩))
  let total_samples := existing_samples.add new_samples
  let merged_confidence ←
    match ((existing_confidence.mul existing_samples).add
        (new_confidence.mul new_samples)).div total_samples with
    | some q => .ok q
    | none => .error .zeroDivisionError
  let merged_value ← merge_value_case (dictGetD existing "value" .vNone)
    (dictGetD newv "value" .vNone) existing_samples new_samples total_samples
    existing_confidence new_confidence
  pure [("value", merged_value),
        ("confidence", .vNum merged_confidence.round3),
        ("sample_size", .vNum total_samples)]

/-- The per-person trait container of `src/models/mindscape.py`: the
trait map plus the version counter maintained by
`MindscapeRepository.upsert` (insert with version 1, update with
version + 1). -/
structure Mindscape where
  traits : Dict
  version : Nat
deriving Repr

/-- `_merge_trait_values` lifted to dynamic operands: Python calls
`.get` on both sides, so a non-dict on either side raises
`AttributeError`. -/
def mergeValVal (existing newv : Val) : Except PyErr Val :=
  match existing, newv with
  | .vDict e, .vDict n => (merge_trait_values e n).map Val.vDict
  | _, _ => .error .attributeError

/-- `ObservationProcessor._update_mindscape_traits`: fold the extracted
traits into the current trait map (merge on existing keys, insert on new
ones) and write back through `MindscapeRepository.upsert`, which
increments the version (or creates version 1). -/
def update_mindscape_traits (m : Option Mindscape) (new_traits : Dict) :
    Except PyErr Mindscape := do
  let current := match m with
    | some ms => ms.traits
    | none => []
  let merged ← new_traits.foldlM
    (fun (cur : Dict) (kv : String × Val) => do
      match dictGet cur kv.1 with
      | some existingv => do
          let mv ← mergeValVal existingv kv.2
          pure (dictSet cur kv.1 mv)
      | none => pure (dictSet cur kv.1 kv.2))
    current
  pure { traits := merged,
         version := match m with
           | some ms => ms.version + 1
           | none => 1 }

/-- Python `needle in container` for dynamic values: substring test on
strings, `==`-scan on lists, key lookup on dicts (a non-string hashable
needle is simply absent; an unhashable needle raises `TypeError`), and
`TypeError` on non-container values. -/
def pyIn (needle container : Val) : Except PyErr Bool :=
  match container with
  | .vStr s =>
      match needle with
      | .vStr sub => .ok (pyStrContains s sub)
      | _ => .error .typeError
  | .vList xs => .ok (xs.any (fun x => Val.beq x needle))
  | .vDict d =>
      match needle with
      | .vStr k => .ok (dictContains d k)
      | .vList _ => .error .typeError
      | .vDict _ => .error .typeError
      | _ => .ok false
  | _ => .error .typeError

/-- Python `container[key]` for the shapes the rule engine exercises
(dict containers).  A non-dict container subscripted by the string keys
the engine uses raises `TypeError`; integer indexing of lists does not
arise on those paths and is folded into the same error. -/
def pySubscript (container key : Val) : Except PyErr Val :=
  match container, key with
  | .vDict d, .vStr k =>
      match dictGet d k with
      | some v => .ok v
      | none => .error .keyError
  | .vDict _, .vList _ => .error .typeError
  | .vDict _, .vDict _ => .error .typeError
  | .vDict _, _ => .error .keyError
  | _, _ => .error .typeError

/-- `float(v)`: numbers and bools coerce, strings parse as decimal
literals (`ValueError` otherwise), everything else raises `TypeError`. -/
def pyFloatCoerce (v : Val) : Except PyErr PyNum :=
  match v with
  | .vNum q => .ok q
  | .vBool b => .ok ⟨if b then 1 else 0, 1⟩
  | .vStr s =>
      match pyParseFloat s with
      | some q => .ok q
      | none => .error .valueError
  | _ => .error .typeError

/-- Dotted-path navigation shared by `_evaluate_trait_check` and
`_evaluate_context_check`: descend while the current value is a dict
containing the next part; `none` means the loop exited early. -/
def navigatePath : List String → Val → Option Val
  | [], current => some current
  | p :: rest, current =>
      match current with
      | .vDict d =>
          match dictGet d p with
          | some v => navigatePath rest v
          | none => none
      | _ => none

/-- The operator block shared verbatim by `_evaluate_trait_check` and
`_evaluate_context_check` (the source duplicates it in both functions):
comparison failures on `greater`/`less`/`contains` are caught in the
source and yield `False`, and an unknown operator yields `False`. -/
def evalOperator (operator current expected : Val) : Bool :=
  match operator with
  | .vStr o =>
      if o = "exists" then true
      else if o = "not_exists" then false
      else if o = "equals" then Val.beq current expected
      else if o = "not_equals" then !(Val.beq current expected)
      else if o = "greater" then
        match (pyFloatCoerce current).toOption, (pyFloatCoerce expected).toOption with
        | some a, some b => PyNum.blt b a
        | _, _ => false
      else if o = "less" then
        match (pyFloatCoerce current).toOption, (pyFloatCoerce expected).toOption with
        | some a, some b => PyNum.blt a b
        | _, _ => false
      else if o = "contains" then
        match pyIn expected current with
        | .ok r => r
        | .error _ => false
      else false
  | _ => false

/-- `RuleEngine._evaluate_trait_check`. -/
def evaluate_trait_check (check : Dict) (traits : Dict) : Except PyErr Bool := do
  let path ←
    match dictGet check "path" with
    | some v => .ok v
    | none => .error .keyError
  let operator ←
    match dictGet check "operator" with
    | some v => .ok v
    | none => .error .keyError
  let expected := dictGetD check "value" .vNone
  let pathStr ←
    match path with
    | .vStr s => Except.ok s
    | _ => .error .attributeError
  match navigatePath (pySplitDot pathStr) (.vDict traits) with
  | none => .ok (Val.beq operator (.vStr "not_exists"))
  | some current => .ok (evalOperator operator current expected)

/-- `RuleEngine._evaluate_context_check` (same operators, navigating the
context bag from the `field` key). -/
def evaluate_context_check (check : Dict) (ctx : Dict) : Except PyErr Bool := do
  let field ←
    match dictGet check "field" with
    | some v => .ok v
    | none => .error .keyError
  let operator ←
    match dictGet check "operator" with
    | some v => .ok v
    | none => .error .keyError
  let expected := dictGetD check "value" .vNone
  let fieldStr ←
    match field with
    | .vStr s => Except.ok s
    | _ => .error .attributeError
  match navigatePath (pySplitDot fieldStr) (.vDict ctx) with
  | none => .ok (Val.beq operator (.vStr "not_exists"))
  | some current => .ok (evalOperator operator current expected)

/-- Resolve the current time for `_evaluate_time_check`: a string in the
context is parsed with `fromisoformat`, a missing entry falls back to
`datetime.now()` (the `now` parameter), and any other value raises on
its first attribute access. -/
def resolveCurrentTime (ctx : Dict) (now : PyTime) : Except PyErr PyTime :=
  match dictGet ctx "current_time" with
  | some (.vStr s) =>
      match parseIsoDatetime s with
      | some (y, mo, dy, h) => .ok ⟨h, weekdayName y mo dy⟩
      | none => .error .valueError
  | some _ => .error .attributeError
  | none => .ok now

/-- `RuleEngine._evaluate_time_check`.  `replace(tzinfo=...)` never
changes the hour, so the timezone branch only contributes its attribute
accesses (the validity of the zone name itself is not modelled). -/
def evaluate_time_check (check : Dict) (ctx : Dict) (now : PyTime) :
    Except PyErr Bool := do
  -- a string current_time is parsed eagerly, before any branch
  match dictGet ctx "current_time" with
  | some (.vStr s) =>
      if (parseIsoDatetime s).isSome then pure () else throw PyErr.valueError
  | _ => pure ()
  -- timezone branch touches current_time.tzinfo and builds ZoneInfo(name)
  if dictContains check "timezone" then do
    let _ ← resolveCurrentTime ctx now
    match dictGet check "timezone" with
    | some (.vStr _) => pure ()
    | some _ => throw PyErr.typeError
    | none => pure ()
  else pure ()
  -- period check
  let periodOk ←
    if dictContains check "period" then do
      let t ← resolveCurrentTime ctx now
      let p := dictGetD check "period" .vNone
      match p with
      | .vList _ => throw PyErr.typeError
      | .vDict _ => throw PyErr.typeError
      | _ =>
          let range : Option (Nat × Nat) :=
            if Val.beq p (.vStr "morning") then some (5, 12)
            else if Val.beq p (.vStr "afternoon") then some (12, 17)
            else if Val.beq p (.vStr "evening") then some (17, 21)
            else if Val.beq p (.vStr "night") then some (21, 5)
            else none
          match range with
          | some (s, e) =>
              if s ≤ e then pure (decide (s ≤ t.hour ∧ t.hour < e))
              else pure (decide (t.hour ≥ s ∨ t.hour < e))
          | none => pure true
    else pure true
  if !periodOk then pure false else do
  -- hour range check
  let hourOk ←
    if dictContains check "hour_range" then do
      match dictGetD check "hour_range" .vNone with
      | .vList [a, b] => do
          let t ← resolveCurrentTime ctx now
          match pyNumView a, pyNumView b with
          | some qa, some qb =>
              let hq : PyNum := ⟨t.hour, 1⟩
              if PyNum.ble qa qb then
                pure (PyNum.ble qa hq && PyNum.blt hq qb)
              else
                pure (PyNum.ble qa hq || PyNum.blt hq qb)
          | _, _ => throw PyErr.typeError
      | .vList _ => throw PyErr.valueError
      | _ => throw PyErr.typeError
    else pure true
  if !hourOk then pure false else do
  -- day-of-week check
  let dayOk ←
    if dictContains check "day_of_week" then do
      let t ← resolveCurrentTime ctx now
      let dayName := pyLower t.weekday
      let names ←
        match dictGetD check "day_of_week" .vNone with
        | .vList ds =>
            ds.mapM (fun d =>
              match d with
              | .vStr s => Except.ok (pyLower s)
              | _ => Except.error PyErr.attributeError)
        | .vStr s => .ok (s.toList.map (fun c => pyLower (String.mk [c])))
        | .vDict d => .ok (d.map (fun kv => pyLower kv.1))
        | _ => .error .typeError
      pure (names.contains dayName)
    else pure true
  pure dayOk

mutual

/-- `RuleEngine._evaluate_conditions`.  The fuel models Python's
recursion limit (`RecursionError` is an exception like any other and is
caught by the per-rule handler); it decreases on every nested evaluation
step. -/
def evaluate_conditions : Nat → Val → Dict → Dict → PyTime → Except PyErr Bool
  | 0, _, _, _, _ => .error .recursionError
  | fuel + 1, conditions, traits, ctx, now =>
      match conditions with
      | .vDict conds =>
          let ctype := dictGetD conds "type" (.vStr "single")
          if Val.beq ctype (.vStr "single") then
            if dictContains conds "trait_check" then
              match dictGetD conds "trait_check" .vNone with
              | .vDict check => evaluate_trait_check check traits
              | _ => .error .typeError
            else if dictContains conds "time_check" then
              match dictGetD conds "time_check" .vNone with
              | .vDict check => evaluate_time_check check ctx now
              | _ => .error .typeError
            else if dictContains conds "context_check" then
              match dictGetD conds "context_check" .vNone with
              | .vDict check => evaluate_context_check check ctx
              | _ => .error .typeError
            else
              -- narrative_check needs a person id; the engine is embedded
              -- as evaluated with person_id None, so that branch is skipped
              -- and the final `return False` applies
              .ok false
          else if Val.beq ctype (.vStr "all") then
            match dictGetD conds "conditions" (.vList []) with
            | .vList cs => evalAllConditions fuel cs traits ctx now
            | _ => .error .typeError
          else if Val.beq ctype (.vStr "any") then
            match dictGetD conds "conditions" (.vList []) with
            | .vList cs => evalAnyConditions fuel cs traits ctx now
            | _ => .error .typeError
          else .ok false
      | _ => .error .attributeError

/-- The `all` branch: every child is evaluated (left to right, first
exception propagating), then the conjunction is taken. -/
def evalAllConditions : Nat → List Val → Dict → Dict → PyTime → Except PyErr Bool
  | 0, _, _, _, _ => .error .recursionError
  | _ + 1, [], _, _, _ => .ok true
  | fuel + 1, c :: rest, traits, ctx, now => do
      let r ← evaluate_conditions fuel c traits ctx now
      let rs ← evalAllConditions fuel rest traits ctx now
      pure (r && rs)

/-- The `any` branch: short-circuits on the first true child. -/
def evalAnyConditions : Nat → List Val → Dict → Dict → PyTime → Except PyErr Bool
  | 0, _, _, _, _ => .error .recursionError
  | _ + 1, [], _, _, _ => .ok false
  | fuel + 1, c :: rest, traits, ctx, now => do
      let r ← evaluate_conditions fuel c traits ctx now
      if r then pure true else evalAnyConditions fuel rest traits ctx now

end

/-- `RuleEngine._resolve_parameter`.  Non-dict sources raise on their
first `.get`/`in` use in Python and are mapped to `TypeError` here. -/
def resolve_parameter (source : Val) (traits ctx : Dict) : Except PyErr Val := do
  let src ←
    match source with
    | .vDict d => Except.ok d
    | _ => .error .typeError
  let value ←
    if dictContains src "from_trait" then do
      let pathStr ←
        match dictGetD src "from_trait" .vNone with
        | .vStr s => Except.ok s
        | _ => .error .attributeError
      match navigatePath (pySplitDot pathStr) (.vDict traits) with
      | some v => pure v
      | none => pure (dictGetD src "default" .vNone)
    else if dictContains src "from_context" then do
      let pathStr ←
        match dictGetD src "from_context" .vNone with
        | .vStr s => Except.ok s
        | _ => .error .attributeError
      match navigatePath (pySplitDot pathStr) (.vDict ctx) with
      | some v => pure v
      | none => pure (dictGetD src "default" .vNone)
    else
      pure (dictGetD src "default" .vNone)
  -- transformation: failures are caught and leave the value untouched
  if !(Val.beq value .vNone) ∧ dictContains src "transform" then
    let transform := dictGetD src "transform" .vNone
    if Val.beq transform (.vStr "minutes_to_hours") then
      match (pyFloatCoerce value).toOption with
      | some q =>
          match q.div ⟨60, 1⟩ with
          | some h => pure (.vStr (fmt1f h ++ " hours"))
          | none => pure value
      | none => pure value
    else if Val.beq transform (.vStr "capitalize") then
      pure (.vStr (pyCapitalize (pyStr value)))
    else if Val.beq transform (.vStr "lower") then
      pure (.vStr (pyLower (pyStr value)))
    else pure value
  else pure value

/-- `RuleEngine._format_template_string`: literal `{param}` substitution.
With no parameters the template is returned untouched whatever its type;
otherwise the `placeholder in result` test raises `TypeError` on
non-container templates, while list/dict templates are returned
unchanged (membership is false, no substitution happens). -/
def format_template_string (tmpl : Val) (params : Dict) : Except PyErr Val :=
  match params with
  | [] => .ok tmpl
  | _ =>
      match tmpl with
      | .vStr s =>
          .ok (.vStr (params.foldl
            (fun (result : String) (kv : String × Val) =>
              let placeholder := "\x7b" ++ kv.1 ++ "\x7d"
              if pyStrContains result placeholder then
                pyStrReplace result placeholder (pyStr kv.2)
              else result) s))
      | .vList xs => .ok (.vList xs)
      | .vDict d => .ok (.vDict d)
      | _ => .error .typeError

/-- `RuleEngine._generate_suggestion`. -/
def generate_suggestion (action templates : Val) (traits ctx : Dict) :
    Except PyErr (Option Dict) := do
  let act ←
    match action with
    | .vDict d => Except.ok d
    | _ => .error .attributeError
  let template_id := dictGetD act "template" .vNone
  if !(pyTruthy template_id) then pure none
  else do
    let isIn ← pyIn template_id templates
    if !isIn then pure none
    else do
      let template ← pySubscript templates template_id
      let tmpl ←
        match template with
        | .vDict d => Except.ok d
        | _ => .error .attributeError
      let params ←
        match dictGetD act "parameters" (.vDict []) with
        | .vDict d => Except.ok d
        | _ => .error .attributeError
      let resolved ← params.foldlM
        (fun (acc : Dict) (kv : String × Val) => do
          let v ← resolve_parameter kv.2 traits ctx
          if Val.beq v .vNone then pure acc else pure (dictSet acc kv.1 v))
        ([] : Dict)
      let title ← format_template_string (dictGetD tmpl "title" (.vStr "")) resolved
      let description ←
        format_template_string (dictGetD tmpl "description" (.vStr "")) resolved
      pure (some
        [("type", dictGetD act "type" .vNone),
         ("title", title),
         ("description", description),
         ("priority", dictGetD tmpl "priority" (.vStr "medium")),
         ("metadata", dictGetD tmpl "metadata" (.vDict [])),
         ("parameters", .vDict resolved)])

/-- One `generate_suggestion` action inside the per-rule loop of
`RuleEngine.evaluate_rules`: dispatch on `action["type"]`, generate, and
attach `rule_id` and `weight`. -/
def runAction (action : Val) (rule : Dict) (weight : Val) (templates : Val)
    (traits ctx : Dict) : Except PyErr (Option Dict) := do
  let act ←
    match action with
    | .vDict d => Except.ok d
    | _ => .error .typeError
  let atype ←
    match dictGet act "type" with
    | some v => Except.ok v
    | none => .error .keyError
  if Val.beq atype (.vStr "generate_suggestion") then do
    let gs ←
      match dictGet act "generate_suggestion" with
      | some v => Except.ok v
      | none => .error .keyError
    let sugg ← generate_suggestion gs templates traits ctx
    match sugg with
    | some s => do
        let rid ←
          match dictGet rule "id" with
          | some v => Except.ok v
          | none => .error .keyError
        pure (some (dictSet (dictSet s "rule_id" rid) "weight" weight))
    | none => pure none
  else pure none

/-- The action loop: suggestions appended before an exception are kept
(the `try` in the source wraps the whole rule body, so earlier appends
to the shared list survive a later failure). -/
def runActions (actions : List Val) (rule : Dict) (weight : Val)
    (templates : Val) (traits ctx : Dict) : List Val × Option PyErr :=
  match actions with
  | [] => ([], none)
  | a :: rest =>
      match runAction a rule weight templates traits ctx with
      | .error e => ([], some e)
      | .ok none => runActions rest rule weight templates traits ctx
      | .ok (some s) =>
          let (l, e) := runActions rest rule weight templates traits ctx
          (Val.vDict s :: l, e)

/-- One iteration of the rule loop in `RuleEngine.evaluate_rules`:
returns the suggestions this rule appended and the exception that ended
it, if any (the caller logs and continues). -/
def process_rule (rule : Val) (templates : Val) (traits ctx : Dict)
    (now : PyTime) : List Val × Option PyErr :=
  match
    (do
      let r ←
        match rule with
        | .vDict d => Except.ok d
        | _ => Except.error PyErr.typeError
      let conditions ←
        match dictGet r "conditions" with
        | some v => Except.ok v
        | none => Except.error PyErr.keyError
      let cond ← evaluate_conditions 1000 conditions traits ctx now
      if !cond then pure none
      else do
        let weight := dictGetD r "weight" (.vNum ⟨1, 1⟩)
        let wq ←
          match pyNumView weight with
          | some q => Except.ok q
          | none => Except.error PyErr.typeError
        if !(PyNum.blt ⟨0, 1⟩ wq) then pure none
        else
          match dictGetD r "actions" (.vList []) with
          | .vList actions => pure (some (r, weight, actions))
          | _ => Except.error PyErr.typeError
        : Except PyErr (Option (Dict × Val × List Val)))
  with
  | .error e => ([], some e)
  | .ok none => ([], none)
  | .ok (some (r, weight, actions)) =>
      runActions actions r weight templates traits ctx

/-- `RuleEngine.evaluate_rules`, embedded for an engine evaluated with
`person_id = None` (no narrative service): per-rule exceptions are
caught and logged, everything a rule appended before failing stays. -/
def evaluate_rules (config : Dict) (mindscape : Mindscape) (ctx : Dict)
    (now : PyTime) : Except PyErr (List Val) :=
  let traits := mindscape.traits
  let templates := dictGetD config "templates" (.vDict [])
  match dictGetD config "rules" (.vList []) with
  | .vList rules =>
      .ok (rules.foldl
        (fun acc rule => acc ++ (process_rule rule templates traits ctx now).1)
        [])
  | _ => .error .typeError

/-- `ℚ` view of a `PyNum` through `mkRat` (equal to `toRat` whenever the
denominator is nonzero); used for the overlay sort keys so that the sort
relation is a genuine total preorder. -/
def pyRatOf (a : PyNum) : ℚ := mkRat a.num a.den

/-- The sort key `(-s.get("weight", 1.0), rank(s.get("priority",
"medium")))` from `PersonaGenerator._build_contextual_overlay`: rank is
`{"high": 3, "medium": 2, "low": 1}` with default 2; negating a
non-numeric weight raises `TypeError`, an unhashable priority raises
`TypeError` (dict lookup). -/
def suggestion_sort_key (s : Val) : Except PyErr (ℚ × ℚ) := do
  let sd ←
    match s with
    | .vDict d => Except.ok d
    | _ => .error .attributeError
  let w := dictGetD sd "weight" (.vNum ⟨1, 1⟩)
  let wq ←
    match pyNumView w with
    | some q => Except.ok q
    | none => .error .typeError
  let p := dictGetD sd "priority" (.vStr "medium")
  let rank : Except PyErr Int :=
    match p with
    | .vList _ => .error .typeError
    | .vDict _ => .error .typeError
    | .vStr s =>
        .ok (if s = "high" then 3 else if s = "medium" then 2
             else if s = "low" then 1 else 2)
    | _ => .ok 2
  let r ← rank
  pure (pyRatOf wq.neg, (r : ℚ))

/-- Ascending lexicographic order on the decorated `(key, suggestion)`
pairs — Python's `sorted` ordering over the key tuples. -/
def overlaySortRel (a b : (ℚ × ℚ) × Val) : Prop :=
  a.1.1 < b.1.1 ∨ (a.1.1 = b.1.1 ∧ a.1.2 ≤ b.1.2)

instance : DecidableRel overlaySortRel := fun a b => by
  unfold overlaySortRel; infer_instance

instance : IsTotal ((ℚ × ℚ) × Val) overlaySortRel where
  total a b := by
    unfold overlaySortRel
    rcases lt_trichotomy a.1.1 b.1.1 with h | h | h
    · exact Or.inl (Or.inl h)
    · rcases le_total a.1.2 b.1.2 with h2 | h2
      · exact Or.inl (Or.inr ⟨h, h2⟩)
      · exact Or.inr (Or.inr ⟨h.symm, h2⟩)
    · exact Or.inr (Or.inl h)

instance : IsTrans ((ℚ × ℚ) × Val) overlaySortRel where
  trans a b c hab hbc := by
    unfold overlaySortRel at *
    rcases hab with h1 | ⟨h1, h1'⟩
    · rcases hbc with h2 | ⟨h2, _⟩
      · exact Or.inl (lt_trans h1 h2)
      · exact Or.inl (h2 ▸ h1)
    · rcases hbc with h2 | ⟨h2, h2'⟩
      · exact Or.inl (h1 ▸ h2)
      · exact Or.inr ⟨h1.trans h2, h1'.trans h2'⟩

/-- `PersonaGenerator._build_contextual_overlay`: current state echo,
suggestions sorted by the decorated key (Python `sorted` is stable;
`List.insertionSort` is the stable sort with the same ordering) and
truncated to the top 5, plus the active-pattern echo. -/
def build_contextual_overlay (mindscape : Mindscape) (suggestions : List Val)
    (ctx : Dict) : Except PyErr Dict := do
  let traits := mindscape.traits
  let current_state ←
    match dictGetD traits "current_state" (.vDict []) with
    | .vDict d => Except.ok d
    | _ => .error .attributeError
  let keyed ← suggestions.mapM
    (fun s => (suggestion_sort_key s).map (fun k => (k, s)))
  let sorted_suggestions := (List.insertionSort overlaySortRel keyed).map Prod.snd
  pure
    [("current_state", .vDict
        [("energy_level", dictGetD current_state "energy_level" (.vStr "unknown")),
         ("focus_available", dictGetD current_state "focus_available" (.vBool true)),
         ("recent_activity", dictGetD current_state "recent_activity" (.vList [])),
         ("context", .vDict ctx)]),
     ("suggestions", .vList (sorted_suggestions.take 5)),
     ("active_patterns", .vDict
        [("time_of_day", dictGetD ctx "time_of_day" (.vStr "unknown")),
         ("day_of_week", dictGetD ctx "day_of_week" (.vStr "unknown")),
         ("workload", dictGetD current_state "workload" (.vStr "normal"))])]

/-- One feedback row as the weight adjuster sees it: creation time in
seconds, the optional rating and helpful flag, and
`context.get("suggestion_type")`.  The store passed around is already
scoped to the feedback's person (the source scopes it with a join on the
persona's `person_id`). -/
structure FeedbackRec where
  created_at : Int
  rating : Option Int
  helpful : Option Bool
  suggestion_type : Option String
deriving Repr, DecidableEq

/-- `(feedback.rating is not None and feedback.rating <= 2) or
(feedback.helpful is False)` from `FeedbackProcessor.process_feedback`. -/
def feedback_is_negative (rating : Option Int) (helpful : Option Bool) : Bool :=
  (match rating with
   | some r => decide (r ≤ 2)
   | none => false) || helpful == some false

/-- `(feedback.rating is not None and feedback.rating >= 4) or
(feedback.helpful is True)`. -/
def feedback_is_positive (rating : Option Int) (helpful : Option Bool) : Bool :=
  (match rating with
   | some r => decide (4 ≤ r)
   | none => false) || helpful == some true

inductive FeedbackClass where
  | positive
  | negative
  | neutral
deriving Repr, DecidableEq

/-- The classification implicit in `FeedbackProcessor.process_feedback`:
neutral when neither predicate holds, otherwise the `if is_negative`
dispatch runs the negative path first. -/
def classify_feedback (rating : Option Int) (helpful : Option Bool) :
    FeedbackClass :=
  if !(feedback_is_negative rating helpful) &&
      !(feedback_is_positive rating helpful) then .neutral
  else if feedback_is_negative rating helpful then .negative
  else .positive

/-- `FeedbackProcessor._get_trait_mapping`. -/
def get_trait_mapping (suggestion_type : String) : List String :=
  if suggestion_type = "task_recommendation" then
    ["work.energy_patterns", "work.focus_duration"]
  else if suggestion_type = "meeting_recovery" then
    ["work.meeting_recovery", "work.context_switching"]
  else if suggestion_type = "break_reminder" then
    ["work.break_patterns", "work.sustained_attention"]
  else if suggestion_type = "focus_block" then
    ["work.peak_hours", "work.focus_duration"]
  else if suggestion_type = "energy_management" then
    ["work.energy_patterns", "work.fatigue_signals"]
  else []

/-- `FeedbackProcessor` class constants. -/
def NEGATIVE_FEEDBACK_THRESHOLD : Nat := 5

def NEGATIVE_ADJUSTMENT : PyNum := ⟨-2, 10⟩

def POSITIVE_ADJUSTMENT : PyNum := ⟨1, 10⟩

def MAX_NEGATIVE_CHANGE : PyNum := ⟨5, 10⟩

def MAX_POSITIVE_WEIGHT : PyNum := ⟨2, 1⟩

/-- The clamped multiplicative update of
`FeedbackProcessor._adjust_trait_weights` on one weight:
`new = old * (1 + adjustment)`, floored at `1.0 - MAX_NEGATIVE_CHANGE`
for negative adjustments, capped at `MAX_POSITIVE_WEIGHT` for positive
ones, then stored as `round(new, 3)`. -/
def adjusted_weight (current_weight adjustment : PyNum) : PyNum :=
  PyNum.round3
    (if PyNum.blt adjustment ⟨0, 1⟩ then
      (current_weight.mul ((PyNum.ofInt 1).add adjustment)).pymax
        ((PyNum.ofInt 1).sub MAX_NEGATIVE_CHANGE)
    else
      (current_weight.mul ((PyNum.ofInt 1).add adjustment)).pymin
        MAX_POSITIVE_WEIGHT)

/-- `FeedbackProcessor._adjust_trait_weights`: mutate the weight,
`last_adjusted` and `adjustment_reason` fields of every mapped trait
present in the mindscape; bump the version once if anything changed. -/
def adjust_trait_weights (m : Mindscape) (traits : List String)
    (adjustment : PyNum) (nowIso : String) : Except PyErr Mindscape := do
  let res ← traits.foldlM
    (fun (acc : Dict × Bool) trait_name => do
      match dictGet acc.1 trait_name with
      | some (.vDict trait_data) => do
          let current_weight ←
            match pyNumView (dictGetD trait_data "weight" (.vNum ⟨1, 1⟩)) with
            | some q => Except.ok q
            | none => Except.error PyErr.typeError
          let new_weight := adjusted_weight current_weight adjustment
          let reason :=
            if PyNum.blt adjustment ⟨0, 1⟩ then "negative_feedback_threshold"
            else "positive_feedback"
          let td := dictSet (dictSet (dictSet trait_data
              "weight" (.vNum new_weight))
              "last_adjusted" (.vStr nowIso))
              "adjustment_reason" (.vStr reason)
          pure (dictSet acc.1 trait_name (.vDict td), true)
      | some _ =>
          -- trait present but not a dict: `.get` raises AttributeError
          Except.error PyErr.attributeError
      | none => pure acc)
    (m.traits, false)
  if res.2 then pure ⟨res.1, m.version + 1⟩ else pure ⟨res.1, m.version⟩

/-- The 7-day trailing window filter of
`FeedbackProcessor._process_negative_feedback` (times in seconds). -/
def feedback_in_window (f : FeedbackRec) (feedback_time : Int) : Bool :=
  decide (feedback_time - 7 * 86400 ≤ f.created_at) &&
    decide (f.created_at ≤ feedback_time)

/-- Row-level negativity as the SQL filter
`(rating <= 2) | (helpful is False)` selects it. -/
def feedback_is_negative_rec (f : FeedbackRec) : Bool :=
  feedback_is_negative f.rating f.helpful

/-- Increment the per-type counter, preserving first-seen order. -/
def bumpCount (counts : List (String × Nat)) (ty : String) :
    List (String × Nat) :=
  match counts with
  | [] => [(ty, 1)]
  | (k, n) :: rest =>
      if k == ty then (k, n + 1) :: rest else (k, n) :: bumpCount rest ty

/-- The `type_counts` dict of `_process_negative_feedback`: negative
feedback in the window grouped by truthy `suggestion_type`. -/
def type_counts (fbs : List FeedbackRec) : List (String × Nat) :=
  fbs.foldl
    (fun acc f =>
      match f.suggestion_type with
      | some ty => if ty = "" then acc else bumpCount acc ty
      | none => acc)
    []

/-- The negative feedback rows inside the trailing window. -/
def negative_window (store : List FeedbackRec) (feedback_time : Int) :
    List FeedbackRec :=
  store.filter (fun f =>
    feedback_in_window f feedback_time && feedback_is_negative_rec f)

/-- `FeedbackProcessor._process_negative_feedback`: every suggestion
type whose windowed negative count reaches the threshold has its mapped
trait weights adjusted by `NEGATIVE_ADJUSTMENT`. -/
def process_negative_feedback (m : Mindscape) (store : List FeedbackRec)
    (feedback_time : Int) (nowIso : String) : Except PyErr Mindscape :=
  (type_counts (negative_window store feedback_time)).foldlM
    (fun acc (kv : String × Nat) =>
      if NEGATIVE_FEEDBACK_THRESHOLD ≤ kv.2 then
        adjust_trait_weights acc (get_trait_mapping kv.1) NEGATIVE_ADJUSTMENT nowIso
      else pure acc)
    m

/-- `FeedbackProcessor._process_positive_feedback`. -/
def process_positive_feedback (m : Mindscape) (traits : List String)
    (nowIso : String) : Except PyErr Mindscape :=
  adjust_trait_weights m traits POSITIVE_ADJUSTMENT nowIso

/-- `FeedbackProcessor.process_feedback` for a feedback whose persona
exists: classify, map the suggestion type, and dispatch (the negative
branch checks the whole window, the positive branch adjusts the
feedback's own mapped traits immediately). -/
def process_feedback (m : Mindscape) (fb : FeedbackRec)
    (store : List FeedbackRec) (nowIso : String) : Except PyErr Mindscape :=
  match classify_feedback fb.rating fb.helpful with
  | .neutral => .ok m
  | cls =>
      match fb.suggestion_type with
      | none => .ok m
      | some ty =>
          if ty = "" then .ok m
          else if (get_trait_mapping ty).isEmpty then .ok m
          else
            match cls with
            | .negative => process_negative_feedback m store fb.created_at nowIso
            | _ => process_positive_feedback m (get_trait_mapping ty) nowIso

/-- `src/models/outbox_task.py` `TaskStatus`. -/
inductive TaskStatus where
  | pending
  | in_progress
  | done
  | failed
deriving Repr, DecidableEq

/-- The fields of an outbox task row that `mark_failed` reads or writes
(times in seconds). -/
structure OutboxTask where
  attempts : Nat
  status : TaskStatus
  run_after : Int
  last_error : String
deriving Repr, DecidableEq

/-- `OutboxTaskRepository.mark_failed`: increment attempts, truncate the
error, and either return to `pending` at `run_after = retry_after`
(while attempts stay below 3 and a retry time was supplied) or become
terminal `failed`. -/
def mark_failed (t : OutboxTask) (error : String) (retry_after : Option Int) :
    OutboxTask :=
  match retry_after with
  | some ra =>
      if t.attempts + 1 < 3 then
        { t with attempts := t.attempts + 1, last_error := error.take 500, status := .pending, run_after := ra }
      else
        { t with attempts := t.attempts + 1, last_error := error.take 500, status := .failed }
  | none =>
      { t with attempts := t.attempts + 1, last_error := error.take 500, status := .failed }

/-- The worker's backoff policy in
`BackgroundWorker._process_next_task`:
`min(60 * 2 ** attempts, 3600)` seconds, computed from the attempt count
before `mark_failed` increments it. -/
def retry_delay_seconds (attempts : Nat) : Int :=
  min (60 * 2 ^ attempts) 3600

/-- A worker-side failure: `mark_failed` with
`retry_after = now + retry_delay`. -/
def worker_mark_failed (now : Int) (t : OutboxTask) (error : String) :
    OutboxTask :=
  mark_failed t error (some (now + retry_delay_seconds t.attempts))

/-- Round-half-to-even to an integer, on rationals (specification-side
mirror of the integer computation inside `PyNum.round3`). -/
def rheInt (x : ℚ) : Int :=
  let f := ⌊x⌋
  if x - f < 1 / 2 then f
  else if 1 / 2 < x - f then f + 1
  else if 2 ∣ f then f else f + 1

/-- Python `round(q, 3)` as a function on rationals. -/
def roundHalfEvenQ (q : ℚ) : ℚ := (rheInt (1000 * q) : ℚ) / 1000

/-- A configuration document with the given rule list and templates. -/
def mkConfig (rules : List Val) (tpl : Val) : Dict :=
  [("rules", .vList rules), ("templates", tpl)]

/-- Content of the end-to-end scenario observation: a work session of 90
minutes, productivity 5, no interruptions, started at hour 10. -/
def c1content : Dict :=
  [("duration_minutes", .vNum ⟨90, 1⟩),
   ("productivity_score", .vNum ⟨5, 1⟩),
   ("interruptions", .vNum ⟨0, 1⟩),
   ("start", .vStr "2025-06-02T10:00:00")]

/-- The traits the extractor yields for `c1content`. -/
def c1traits : Dict :=
  [("work.focus_duration", traitEntry (.vNum ⟨90, 1⟩) 9 10),
   ("work.peak_hours", traitEntry (.vList [.vStr "10:00-11:00"]) 7 10),
   ("current_state.energy_level", traitEntry (.vStr "high") 6 10)]

/-- The scenario's trait check: `current_state.energy_level equals high`. -/
def c1check : Dict :=
  [("path", .vStr "current_state.energy_level"),
   ("operator", .vStr "equals"),
   ("value", .vStr "high")]

/-- The scenario rule: morning period AND the energy-level trait check,
emitting a "Deep Work Window" suggestion. -/
def c1rule : Val := .vDict
  [("id", .vStr "deep_work_window"),
   ("conditions", .vDict
     [("type", .vStr "all"),
      ("conditions", .vList
        [.vDict [("type", .vStr "single"),
                 ("time_check", .vDict [("period", .vStr "morning")])],
         .vDict [("type", .vStr "single"),
                 ("trait_check", .vDict
                   [("path", .vStr "current_state.energy_level"),
                    ("operator", .vStr "equals"),
                    ("value", .vStr "high")])]])]),
   ("actions", .vList
     [.vDict [("type", .vStr "generate_suggestion"),
              ("generate_suggestion", .vDict
                [("template", .vStr "deep_work"),
                 ("parameters", .vDict [])])]]),
   ("weight", .vNum ⟨1, 1⟩)]

/-- The scenario configuration. -/
def c1config : Dict :=
  mkConfig [c1rule]
    (.vDict
      [("deep_work", .vDict
        [("title", .vStr "Deep Work Window"),
         ("description", .vStr "Block 90 minutes for focused work"),
         ("priority", .vStr "high")])])

/-- A work-session content whose `productivity_score` is a string: the
extractor compares it against 4 and Python raises `TypeError`. -/
def c5content : Dict :=
  [("start", .vStr "2025-06-02T10:00:00"),
   ("productivity_score", .vStr "high")]

/-- Merge counterexample operands: categorical values with confidences
`0.9`/`0.8` and sample sizes 1/2, whose exact weighted confidence `5/6`
is not representable in 3 decimals. -/
def c3existing : Dict :=
  [("value", .vStr "a"), ("confidence", .vNum ⟨9, 10⟩),
   ("sample_size", .vNum ⟨1, 1⟩)]

def c3incoming : Dict :=
  [("value", .vStr "b"), ("confidence", .vNum ⟨8, 10⟩),
   ("sample_size", .vNum ⟨2, 1⟩)]

/-- The spec's merge example: existing `{value:60, confidence:0.8, n:1}`. -/
def c3exampleExisting : Dict :=
  [("value", .vNum ⟨60, 1⟩), ("confidence", .vNum ⟨8, 10⟩),
   ("sample_size", .vNum ⟨1, 1⟩)]

/-- The spec's merge example: incoming `{value:90, confidence:0.9, n:1}`. -/
def c3exampleIncoming : Dict :=
  [("value", .vNum ⟨90, 1⟩), ("confidence", .vNum ⟨9, 10⟩),
   ("sample_size", .vNum ⟨1, 1⟩)]

/-- Weight of a suggestion as the C2 spec sentence reads it (the
`weight` entry, defaulting to 1). -/
def specWeight (s : Val) : ℚ :=
  match s with
  | .vDict d =>
      match dictGet d "weight" with
      | some (.vNum q) => pyRatOf q
      | _ => 1
  | _ => 1

/-- Priority tier of a suggestion as the C2 spec sentence reads it:
high 3, medium 2, low 1, anything else 2. -/
def specPriorityRank (s : Val) : ℚ :=
  match s with
  | .vDict d =>
      match dictGet d "priority" with
      | some (.vStr p) =>
          if p = "high" then 3 else if p = "medium" then 2
          else if p = "low" then 1 else 2
      | _ => 2
  | _ => 2

/-- The ordering claimed by the spec (C2): descending weight, and among
equal weights priority tier high before medium before low. -/
def specSuggestionLE (a b : Val) : Prop :=
  specWeight b < specWeight a ∨
    (specWeight a = specWeight b ∧ specPriorityRank b ≤ specPriorityRank a)

/-- Equal-weight suggestions with `high` and `low` priority, for the C2
tie-ordering counterexample. -/
def c2high : Val := .vDict
  [("title", .vStr "h"), ("priority", .vStr "high"), ("weight", .vNum ⟨1, 1⟩)]

def c2low : Val := .vDict
  [("title", .vStr "l"), ("priority", .vStr "low"), ("weight", .vNum ⟨1, 1⟩)]

/-- Six suggestions with distinct weights for the C2 truncation witness. -/
def c2sugg (w : Int) : Val := .vDict
  [("title", .vStr (intToStr w)), ("priority", .vStr "medium"),
   ("weight", .vNum ⟨w, 1⟩)]

/-- A valid action for the C8 counterexample rule. -/
def c8goodAction : Val := .vDict
  [("type", .vStr "generate_suggestion"),
   ("generate_suggestion", .vDict [("template", .vStr "tpl1")])]

/-- A malformed action (no `type` key): `action["type"]` raises
`KeyError` after the first action already appended its suggestion. -/
def c8badAction : Val := .vDict [("note", .vStr "missing type")]

/-- A rule whose condition holds (an empty `time_check` is always true)
and whose second action raises. -/
def c8rule : Val := .vDict
  [("id", .vStr "partial_rule"),
   ("conditions", .vDict
     [("type", .vStr "single"), ("time_check", .vDict [])]),
   ("actions", .vList [c8goodAction, c8badAction]),
   ("weight", .vNum ⟨1, 1⟩)]

def c8templates : Val := .vDict
  [("tpl1", .vDict [("title", .vStr "T1"), ("priority", .vStr "high")])]

/-- A well-formed rule used around the faulty one in the C8 witness. -/
def c8okRule (rid tid : String) : Val := .vDict
  [("id", .vStr rid),
   ("conditions", .vDict
     [("type", .vStr "single"), ("time_check", .vDict [])]),
   ("actions", .vList
     [.vDict [("type", .vStr "generate_suggestion"),
              ("generate_suggestion", .vDict [("template", .vStr tid)])]]),
   ("weight", .vNum ⟨1, 1⟩)]

/-- A rule whose condition raises (`trait_check` without `path`). -/
def c8condErrorRule : Val := .vDict
  [("id", .vStr "bad_condition"),
   ("conditions", .vDict
     [("type", .vStr "single"), ("trait_check", .vDict [("operator", .vStr "equals")])]),
   ("actions", .vList []),
   ("weight", .vNum ⟨1, 1⟩)]

/-- One feedback-weight adjustment step (positive or negative), as the
amended C6 claim quantifies over. -/
inductive FeedbackAdj where
  | pos
  | neg
deriving Repr, DecidableEq

/-- Apply one adjustment with the processor's constants. -/
def apply_feedback_adjustment (w : PyNum) : FeedbackAdj → PyNum
  | .pos => adjusted_weight w POSITIVE_ADJUSTMENT
  | .neg => adjusted_weight w NEGATIVE_ADJUSTMENT

/-- The stored weight after each adjustment of a finite sequence. -/
def weight_trajectory (w : PyNum) : List FeedbackAdj → List PyNum
  | [] => []
  | a :: rest =>
      let w' := apply_feedback_adjustment w a
      w' :: weight_trajectory w' rest

/-- A negative feedback row (rating 1) at the given time and type. -/
def c7neg (t : Int) (ty : String) : FeedbackRec := ⟨t, some 1, none, some ty⟩

/-- Five windowed negatives for `focus_block`, then the processed
feedback: the first negative for `break_reminder`. -/
def c7store : List FeedbackRec :=
  [c7neg 100 "focus_block", c7neg 200 "focus_block", c7neg 300 "focus_block",
   c7neg 400 "focus_block", c7neg 500 "focus_block", c7neg 600 "break_reminder"]

def c7fb : FeedbackRec := c7neg 600 "break_reminder"

/-- A mindscape holding one of `focus_block`'s mapped traits. -/
def c7mind : Mindscape :=
  ⟨[("work.peak_hours", traitEntry (.vList [.vStr "09:00-10:00"]) 7 10)], 5⟩

/-- The ordering that C2 (amended) asserts on adjacent retained
suggestions, phrased through the source's sort key: whenever both keys
are defined, the pair is ascending in `(-weight, priority rank)` — i.e.
descending weight, and on weight ties ascending rank, so `low` before
`medium` before `high`. -/
def suggKeyLE (a b : Val) : Prop :=
  ∀ ka kb, suggestion_sort_key a = .ok ka → suggestion_sort_key b = .ok kb →
    ka.1 < kb.1 ∨ (ka.1 = kb.1 ∧ ka.2 ≤ kb.2)

/-! ## Theorems -/

theorem PyNum.WF_ofInt (n : Int) : (PyNum.ofInt n).WF := Nat.one_pos

theorem PyNum.WF_add {a b : PyNum} (ha : a.WF) (hb : b.WF) : (a.add b).WF :=
  Nat.mul_pos ha hb

theorem PyNum.WF_sub {a b : PyNum} (ha : a.WF) (hb : b.WF) : (a.sub b).WF :=
  Nat.mul_pos ha hb

theorem PyNum.WF_mul {a b : PyNum} (ha : a.WF) (hb : b.WF) : (a.mul b).WF :=
  Nat.mul_pos ha hb

theorem PyNum.WF_round3 (a : PyNum) : (a.round3 : PyNum).WF := by
  simp [PyNum.round3, PyNum.WF]

theorem PyNum.WF_pymax {a b : PyNum} (ha : a.WF) (hb : b.WF) : (a.pymax b).WF := by
  unfold PyNum.pymax; split <;> assumption

theorem PyNum.WF_pymin {a b : PyNum} (ha : a.WF) (hb : b.WF) : (a.pymin b).WF := by
  unfold PyNum.pymin; split <;> assumption

theorem PyNum.toRat_ofInt (n : Int) : (PyNum.ofInt n).toRat = (n : ℚ) := by
  simp [PyNum.ofInt, PyNum.toRat]

theorem PyNum.toRat_add {a b : PyNum} (ha : a.WF) (hb : b.WF) :
    (a.add b).toRat = a.toRat + b.toRat := by
  have ha' : ((a.den : ℚ)) ≠ 0 := by
    exact_mod_cast Nat.pos_iff_ne_zero.mp ha
  have hb' : ((b.den : ℚ)) ≠ 0 := by
    exact_mod_cast Nat.pos_iff_ne_zero.mp hb
  unfold PyNum.add PyNum.toRat
  push_cast
  field_simp

theorem PyNum.toRat_sub {a b : PyNum} (ha : a.WF) (hb : b.WF) :
    (a.sub b).toRat = a.toRat - b.toRat := by
  have ha' : ((a.den : ℚ)) ≠ 0 := by
    exact_mod_cast Nat.pos_iff_ne_zero.mp ha
  have hb' : ((b.den : ℚ)) ≠ 0 := by
    exact_mod_cast Nat.pos_iff_ne_zero.mp hb
  unfold PyNum.sub PyNum.toRat
  push_cast
  field_simp
  ring

theorem PyNum.toRat_mul {a b : PyNum} (ha : a.WF) (hb : b.WF) :
    (a.mul b).toRat = a.toRat * b.toRat := by
  have ha' : ((a.den : ℚ)) ≠ 0 := by
    exact_mod_cast Nat.pos_iff_ne_zero.mp ha
  have hb' : ((b.den : ℚ)) ≠ 0 := by
    exact_mod_cast Nat.pos_iff_ne_zero.mp hb
  unfold PyNum.mul PyNum.toRat
  push_cast
  field_simp

theorem PyNum.toRat_neg (a : PyNum) : a.neg.toRat = -a.toRat := by
  unfold PyNum.neg PyNum.toRat
  push_cast
  ring

theorem PyNum.ble_iff {a b : PyNum} (ha : a.WF) (hb : b.WF) :
    a.ble b = true ↔ a.toRat ≤ b.toRat := by
  have ha' : (0 : ℚ) < (a.den : ℚ) := by exact_mod_cast ha
  have hb' : (0 : ℚ) < (b.den : ℚ) := by exact_mod_cast hb
  unfold PyNum.ble PyNum.toRat
  rw [decide_eq_true_eq, div_le_div_iff ha' hb']
  constructor
  · intro h; exact_mod_cast h
  · intro h; exact_mod_cast h

theorem PyNum.blt_iff {a b : PyNum} (ha : a.WF) (hb : b.WF) :
    a.blt b = true ↔ a.toRat < b.toRat := by
  have ha' : (0 : ℚ) < (a.den : ℚ) := by exact_mod_cast ha
  have hb' : (0 : ℚ) < (b.den : ℚ) := by exact_mod_cast hb
  unfold PyNum.blt PyNum.toRat
  rw [decide_eq_true_eq, div_lt_div_iff ha' hb']
  constructor
  · intro h; exact_mod_cast h
  · intro h; exact_mod_cast h

theorem PyNum.beq_iff {a b : PyNum} (ha : a.WF) (hb : b.WF) :
    a.beq b = true ↔ a.toRat = b.toRat := by
  have ha' : ((a.den : ℚ)) ≠ 0 := by
    exact_mod_cast Nat.pos_iff_ne_zero.mp ha
  have hb' : ((b.den : ℚ)) ≠ 0 := by
    exact_mod_cast Nat.pos_iff_ne_zero.mp hb
  unfold PyNum.beq PyNum.toRat
  rw [decide_eq_true_eq, div_eq_div_iff ha' hb']
  constructor
  · intro h; exact_mod_cast h
  · intro h; exact_mod_cast h

theorem PyNum.toRat_pymax {a b : PyNum} (ha : a.WF) (hb : b.WF) :
    (a.pymax b).toRat = max a.toRat b.toRat := by
  unfold PyNum.pymax
  by_cases h : b.ble a = true
  · rw [if_pos h]
    rw [PyNum.ble_iff hb ha] at h
    exact (max_eq_left h).symm
  · rw [if_neg h]
    have : ¬ b.toRat ≤ a.toRat := fun hc => h ((PyNum.ble_iff hb ha).mpr hc)
    exact (max_eq_right (le_of_not_le this)).symm

theorem PyNum.toRat_pymin {a b : PyNum} (ha : a.WF) (hb : b.WF) :
    (a.pymin b).toRat = min a.toRat b.toRat := by
  unfold PyNum.pymin
  by_cases h : a.ble b = true
  · rw [if_pos h]
    rw [PyNum.ble_iff ha hb] at h
    exact (min_eq_left h).symm
  · rw [if_neg h]
    have : ¬ a.toRat ≤ b.toRat := fun hc => h ((PyNum.ble_iff ha hb).mpr hc)
    exact (min_eq_right (le_of_not_le this)).symm

/-- The integer selected by round-half-to-even lies between the floor
quotient and the floor quotient plus one. -/
theorem PyNum.round3_num_between (a : PyNum) :
    (1000 * a.num).fdiv (a.den : Int) ≤ a.round3.num ∧
      a.round3.num ≤ (1000 * a.num).fdiv (a.den : Int) + 1 := by
  unfold PyNum.round3
  dsimp only
  constructor
  · split
    · exact le_refl _
    · split
      · exact Int.le_add_one (le_refl _)
      · split
        · exact le_refl _
        · exact Int.le_add_one (le_refl _)
  · split
    · exact Int.le_add_one (le_refl _)
    · split
      · exact le_refl _
      · split
        · exact Int.le_add_one (le_refl _)
        · exact le_refl _

theorem PyNum.round3_den (a : PyNum) : a.round3.den = 1000 := rfl

/-- `round3` never moves a value across a bound that is a multiple of
1/1000: bounds of the form `lo/1000 ≤ a ≤ hi/1000` are preserved. -/
theorem PyNum.round3_bounds {a : PyNum} (ha : a.WF) {lo hi : Int}
    (hlo : (lo : ℚ) / 1000 ≤ a.toRat) (hhi : a.toRat ≤ (hi : ℚ) / 1000) :
    (lo : ℚ) / 1000 ≤ a.round3.toRat ∧ a.round3.toRat ≤ (hi : ℚ) / 1000 := by
  have hd : (0 : Int) < (a.den : Int) := by exact_mod_cast ha
  have hdq0 : ((a.den : ℚ)) ≠ 0 := by
    exact_mod_cast Nat.pos_iff_ne_zero.mp ha
  -- integer bounds on t = 1000 * num
  have hlo' : lo * (a.den : Int) ≤ 1000 * a.num := by
    rw [PyNum.toRat, div_le_div_iff (by norm_num) (by exact_mod_cast ha)] at hlo
    have hq : ((lo * (a.den : Int) : Int) : ℚ) ≤ ((1000 * a.num : Int) : ℚ) := by
      push_cast
      push_cast at hlo
      linarith
    exact_mod_cast hq
  have hhi' : 1000 * a.num ≤ hi * (a.den : Int) := by
    rw [PyNum.toRat, div_le_div_iff (by exact_mod_cast ha) (by norm_num)] at hhi
    have hq : ((1000 * a.num : Int) : ℚ) ≤ ((hi * (a.den : Int) : Int) : ℚ) := by
      push_cast
      push_cast at hhi
      linarith
    exact_mod_cast hq
  have hfe : (1000 * a.num).fdiv (a.den : Int) = (1000 * a.num) / (a.den : Int) :=
    Int.fdiv_eq_ediv _ (le_of_lt hd)
  obtain ⟨hzlb, hzub⟩ := PyNum.round3_num_between a
  -- lower bound on the selected integer
  have hflo : lo ≤ (1000 * a.num).fdiv (a.den : Int) := by
    rw [hfe]
    exact (Int.le_ediv_iff_mul_le hd).mpr hlo'
  have hzlo : lo ≤ a.round3.num := le_trans hflo hzlb
  -- upper bound on the selected integer
  have hzhi : a.round3.num ≤ hi := by
    by_cases hcase : 1000 * a.num = hi * (a.den : Int)
    · -- exact top: remainder is zero, so the first branch is taken
      have hfval : (1000 * a.num).fdiv (a.den : Int) = hi := by
        rw [hfe, hcase, Int.mul_ediv_cancel _ (ne_of_gt hd)]
      have hznum : a.round3.num = hi := by
        unfold PyNum.round3
        dsimp only
        rw [hfval, hcase]
        have hrem : hi * (a.den : Int) - hi * (a.den : Int) = 0 := by ring
        rw [hrem]
        simp [hd]
      rw [hznum]
    · have hlt : 1000 * a.num < hi * (a.den : Int) := lt_of_le_of_ne hhi' hcase
      have hflt : (1000 * a.num).fdiv (a.den : Int) < hi := by
        rw [hfe]
        exact Int.ediv_lt_of_lt_mul hd (by linarith)
      linarith
  have hzloq : (lo : ℚ) ≤ (a.round3.num : ℚ) := by exact_mod_cast hzlo
  have hzhiq : (a.round3.num : ℚ) ≤ (hi : ℚ) := by exact_mod_cast hzhi
  have hden : ((a.round3.den : ℚ)) = 1000 := by
    rw [PyNum.round3_den]; norm_num
  constructor
  · rw [PyNum.toRat, hden]
    exact (div_le_div_right (by norm_num)).mpr hzloq
  · rw [PyNum.toRat, hden]
    exact (div_le_div_right (by norm_num)).mpr hzhiq

theorem PyNum.WF_div {a b c : PyNum} (ha : a.WF) (hb : 0 < b.num.natAbs)
    (h : a.div b = some c) : c.WF := by
  unfold PyNum.div at h
  split at h
  · exact absurd h (by simp)
  · cases h
    exact Nat.mul_pos ha hb

theorem PyNum.div_eq_some {a b : PyNum} (h : b.num ≠ 0) :
    a.div b = some ⟨(if b.num < 0 then -(a.num * b.den) else a.num * b.den),
      a.den * b.num.natAbs⟩ := by
  unfold PyNum.div
  rw [if_neg h]

theorem PyNum.toRat_div {a b c : PyNum} (ha : a.WF) (hb : b.WF)
    (h : a.div b = some c) : c.toRat = a.toRat / b.toRat := by
  unfold PyNum.div at h
  split at h
  · exact absurd h (by simp)
  · rename_i hb0
    have hda : ((a.den : ℚ)) ≠ 0 := by
      exact_mod_cast Nat.pos_iff_ne_zero.mp ha
    have hdb : ((b.den : ℚ)) ≠ 0 := by
      exact_mod_cast Nat.pos_iff_ne_zero.mp hb
    have hnb : ((b.num : ℚ)) ≠ 0 := by exact_mod_cast hb0
    have habs : ((b.num.natAbs : ℚ)) = |(b.num : ℚ)| := by
      push_cast [Int.cast_natAbs]
      norm_num
    cases h
    by_cases hs : b.num < 0
    · have hsq : ((b.num : ℚ)) < 0 := by exact_mod_cast hs
      unfold PyNum.toRat
      rw [if_pos hs]
      push_cast [habs, abs_of_neg hsq]
      field_simp
    · have hsq : (0 : ℚ) ≤ ((b.num : ℚ)) := by
        have : (0 : Int) ≤ b.num := le_of_not_lt hs
        exact_mod_cast this
      unfold PyNum.toRat
      rw [if_neg hs]
      push_cast [habs, abs_of_nonneg hsq]
      field_simp


/-- C1: the end-to-end scenario up to the rule engine behaves as
claimed — the extractor yields `work.focus_duration = 90`,
`current_state.energy_level = high` and a `work.peak_hours` entry, and
the merge bumps the version from 3 to 4 — but the configured rule does
NOT fire: the trait map stores the flat dotted key
`"current_state.energy_level"`, while `_evaluate_trait_check` splits the
path on dots and looks up `"current_state"` first, so the trait check
evaluates false (and even the time check alone being true at hour 10
cannot save the conjunction), and `evaluate_rules` emits no suggestion. -/
theorem c1_end_to_end_scenario :
    extract_traits .work_session c1content = .ok c1traits ∧
    update_mindscape_traits (some ⟨[], 3⟩) c1traits = .ok ⟨c1traits, 4⟩ ∧
    evaluate_time_check [("period", .vStr "morning")] [] ⟨10, "Monday"⟩ = .ok true ∧
    evaluate_trait_check c1check c1traits = .ok false ∧
    evaluate_rules c1config ⟨c1traits, 4⟩ [] ⟨10, "Monday"⟩ = .ok [] :=
  ⟨rfl, rfl, rfl, rfl, rfl⟩

/-- C5: the extractor is not exception-free: a work-session content with
a string `productivity_score` and a parseable `start` reaches the
`productivity >= 4` comparison and raises `TypeError`. -/
theorem c5_extractor_raises_on_nonnumeric_productivity :
    extract_traits .work_session c5content = .error .typeError := rfl

/-- C9 counterexample: `helpful == True` with `rating = 1` — the claim
classifies it positive (`helpful == true` clause), the code classifies
it negative (the negative branch is checked first). -/
theorem c9_counterexample :
    classify_feedback (some 1) (some true) = .negative ∧
      FeedbackClass.negative ≠ FeedbackClass.positive :=
  ⟨rfl, by simp⟩

/-- C3 counterexample: merging confidences `0.9` (n=1) and `0.8` (n=2)
stores `round(5/6, 3) = 0.833`, not the exact weighted average `5/6`
the claim states. -/
theorem c3_counterexample :
    merge_trait_values c3existing c3incoming =
      .ok [("value", .vStr "a"),
           ("confidence", .vNum ⟨833, 1000⟩),
           ("sample_size", .vNum ⟨3, 1⟩)] ∧
      (PyNum.toRat ⟨833, 1000⟩) ≠
        ((9 : ℚ) / 10 * 1 + (8 : ℚ) / 10 * 2) / (1 + 2) := by
  constructor
  · rfl
  · unfold PyNum.toRat
    norm_num

/-- C6 counterexample: the stored weight is the clamped value rounded to
3 decimals; after three positive adjustments the weight is exactly
1.331, and the fourth stores 1.464 rather than the claimed
`min(1.331 * 1.1, 2.0) = 1.4641`. -/
theorem c6_counterexample :
    weight_trajectory ⟨1, 1⟩ [.pos, .pos, .pos, .pos] =
      [⟨1100, 1000⟩, ⟨1210, 1000⟩, ⟨1331, 1000⟩, ⟨1464, 1000⟩] ∧
      (PyNum.toRat ⟨1464, 1000⟩) ≠
        min ((PyNum.toRat ⟨1331, 1000⟩) * (11 / 10)) 2 := by
  constructor
  · rfl
  · unfold PyNum.toRat
    norm_num

/-- C2 counterexample: two suggestions of equal weight, priorities
`high` and `low`.  The sort key ranks priorities `high = 3 > low = 1`
but sorts the tuples ascending, so the overlay lists `low` before
`high`, violating the claimed high-before-low tie order. -/
theorem c2_counterexample :
    (∃ ov, build_contextual_overlay ⟨[], 1⟩ [c2high, c2low] [] = .ok ov ∧
      dictGet ov "suggestions" = some (.vList [c2low, c2high])) ∧
      ¬ List.Pairwise specSuggestionLE [c2low, c2high] := by
  constructor
  · exact ⟨_, rfl, rfl⟩
  · intro h
    have h2 := List.rel_of_pairwise_cons h (List.mem_singleton.mpr rfl)
    rcases h2 with h2 | ⟨_, h2⟩
    · rw [show specWeight c2high = 1 from rfl,
        show specWeight c2low = 1 from rfl] at h2
      exact absurd h2 (by norm_num)
    · rw [show specPriorityRank c2high = 3 from rfl,
        show specPriorityRank c2low = 1 from rfl] at h2
      exact absurd h2 (by norm_num)

/-- C8 counterexample: a rule whose condition holds, whose first action
emits a suggestion and whose second action raises (`action["type"]` is
missing).  The per-rule handler catches the exception, but the
suggestion appended before it stays: the raising rule *does* contribute
a suggestion, contrary to the claim. -/
theorem c8_counterexample :
    (process_rule c8rule c8templates [] [] ⟨10, "Monday"⟩).2 =
      some .keyError ∧
    evaluate_rules (mkConfig [c8rule] c8templates) ⟨[], 1⟩ [] ⟨10, "Monday"⟩ =
      .ok [.vDict
        [("type", .vNone),
         ("title", .vStr "T1"),
         ("description", .vStr ""),
         ("priority", .vStr "high"),
         ("metadata", .vDict []),
         ("parameters", .vDict []),
         ("rule_id", .vStr "partial_rule"),
         ("weight", .vNum ⟨1, 1⟩)]] :=
  ⟨rfl, rfl⟩

/-- C7 counterexample: five windowed negatives for `focus_block` are
already stored; processing the *first* negative for `break_reminder`
(whose own count is 1 < 5) still adjusts weights — the processor
re-adjusts every type at or above threshold on every negative feedback,
not just the processed feedback's type. -/
theorem c7_counterexample :
    type_counts (negative_window c7store 600) =
      [("focus_block", 5), ("break_reminder", 1)] ∧
    classify_feedback c7fb.rating c7fb.helpful = .negative ∧
    process_feedback c7mind c7fb c7store "2025-06-09T00:00:00" =
      .ok ⟨[("work.peak_hours", .vDict
        [("value", .vList [.vStr "09:00-10:00"]),
         ("confidence", .vNum ⟨7, 10⟩),
         ("sample_size", .vNum ⟨1, 1⟩),
         ("weight", .vNum ⟨800, 1000⟩),
         ("last_adjusted", .vStr "2025-06-09T00:00:00"),
         ("adjustment_reason", .vStr "negative_feedback_threshold")])], 6⟩ ∧
    dictGet c7mind.traits "work.peak_hours" =
      some (traitEntry (.vList [.vStr "09:00-10:00"]) 7 10) :=
  ⟨rfl, rfl, rfl, rfl⟩

/-- Projection of `mark_failed` on `attempts`. -/
theorem mark_failed_attempts (t : OutboxTask) (err : String)
    (ra : Option Int) : (mark_failed t err ra).attempts = t.attempts + 1 := by
  unfold mark_failed
  split <;> first
    | rfl
    | (split <;> rfl)

theorem mark_failed_status_pending (t : OutboxTask) (err : String) (r : Int)
    (hr : t.attempts + 1 < 3) :
    (mark_failed t err (some r)).status = .pending ∧
      (mark_failed t err (some r)).run_after = r := by
  constructor <;>
    (unfold mark_failed
     split
     · rename_i ra heq
       cases heq
       rw [if_pos hr]
     · rename_i heq
       exact absurd heq (by simp))

theorem mark_failed_status_failed (t : OutboxTask) (err : String) (r : Int)
    (hr : 3 ≤ t.attempts + 1) :
    (mark_failed t err (some r)).status = .failed := by
  unfold mark_failed
  split
  · rename_i ra heq
    cases heq
    rw [if_neg (by omega)]
  · rfl

/-- C4: `fail` increments attempts by one; below 3 attempts with a
supplied retry time the task returns to `pending` at exactly that time;
without one (or at 3 attempts) it becomes terminal `failed`; under the
worker's backoff policy the task is failed exactly when attempts reach
3, the retry offset is `min(60 * 2^attempts, 3600)`, consecutive
offsets strictly increase, and the offset never exceeds the 3600s cap. -/
theorem c4_retry_and_backoff (t : OutboxTask) (err : String) (now : Int)
    (h : t.attempts < 3) :
    (mark_failed t err none).status = .failed ∧
    (∀ r, (mark_failed t err (some r)).attempts = t.attempts + 1) ∧
    (∀ r, t.attempts + 1 < 3 →
      (mark_failed t err (some r)).status = .pending ∧
      (mark_failed t err (some r)).run_after = r) ∧
    (∀ r, 3 ≤ t.attempts + 1 → (mark_failed t err (some r)).status = .failed) ∧
    ((worker_mark_failed now t err).status = .failed ↔
      (worker_mark_failed now t err).attempts = 3) ∧
    (t.attempts + 1 < 3 →
      (worker_mark_failed now t err).run_after =
        now + retry_delay_seconds t.attempts) ∧
    retry_delay_seconds t.attempts < retry_delay_seconds (t.attempts + 1) ∧
    retry_delay_seconds t.attempts ≤ 3600 := by
  refine ⟨rfl, fun r => mark_failed_attempts t err (some r),
    fun r hr => mark_failed_status_pending t err r hr,
    fun r hr => mark_failed_status_failed t err r hr, ?_, ?_, ?_, ?_⟩
  · unfold worker_mark_failed
    rw [mark_failed_attempts]
    by_cases hc : t.attempts + 1 < 3
    · rw [(mark_failed_status_pending t err _ hc).1]
      exact iff_of_false (by simp) (by omega)
    · rw [mark_failed_status_failed t err _ (by omega)]
      exact iff_of_true rfl (by omega)
  · intro hr
    exact (mark_failed_status_pending t err _ hr).2
  · have key : ∀ a : Nat, a < 3 →
        retry_delay_seconds a < retry_delay_seconds (a + 1) := by
      intro a ha
      interval_cases a <;> decide
    exact key _ h
  · have key : ∀ a : Nat, a < 3 → retry_delay_seconds a ≤ 3600 := by
      intro a ha
      interval_cases a <;> decide
    exact key _ h

/-- Boolean negativity test in propositional form. -/
theorem feedback_is_negative_iff (rating : Option Int) (helpful : Option Bool) :
    feedback_is_negative rating helpful = true ↔
      (helpful = some false ∨ ∃ r, rating = some r ∧ r ≤ 2) := by
  cases rating with
  | none =>
      cases helpful with
      | none => simp [feedback_is_negative]
      | some b => cases b <;> simp [feedback_is_negative]
  | some r =>
      cases helpful with
      | none => simp [feedback_is_negative]
      | some b => cases b <;> simp [feedback_is_negative] <;> tauto

/-- Boolean positivity test in propositional form. -/
theorem feedback_is_positive_iff (rating : Option Int) (helpful : Option Bool) :
    feedback_is_positive rating helpful = true ↔
      (helpful = some true ∨ ∃ r, rating = some r ∧ 4 ≤ r) := by
  cases rating with
  | none =>
      cases helpful with
      | none => simp [feedback_is_positive]
      | some b => cases b <;> simp [feedback_is_positive]
  | some r =>
      cases helpful with
      | none => simp [feedback_is_positive]
      | some b => cases b <;> simp [feedback_is_positive] <;> tauto

/-- The dispatch order made explicit: negative wins, then positive. -/
theorem classify_feedback_eq (rating : Option Int) (helpful : Option Bool) :
    classify_feedback rating helpful =
      (if feedback_is_negative rating helpful then .negative
       else if feedback_is_positive rating helpful then .positive
       else .neutral) := by
  unfold classify_feedback
  by_cases hn : feedback_is_negative rating helpful <;>
    by_cases hp : feedback_is_positive rating helpful <;>
      simp [hn, hp]

/-- C9 (amended): classification with the negative clause taking
precedence — `helpful == false` or `rating <= 2` classifies negative;
otherwise `helpful == true` or `rating >= 4` classifies positive;
otherwise neutral.  The claim's three instances hold as stated. -/
theorem c9_classification (rating : Option Int) (helpful : Option Bool) :
    (classify_feedback rating helpful = .negative ↔
      (helpful = some false ∨ ∃ r, rating = some r ∧ r ≤ 2)) ∧
    (classify_feedback rating helpful = .positive ↔
      (¬ (helpful = some false ∨ ∃ r, rating = some r ∧ r ≤ 2) ∧
        (helpful = some true ∨ ∃ r, rating = some r ∧ 4 ≤ r))) ∧
    (classify_feedback rating helpful = .neutral ↔
      (¬ (helpful = some false ∨ ∃ r, rating = some r ∧ r ≤ 2) ∧
        ¬ (helpful = some true ∨ ∃ r, rating = some r ∧ 4 ≤ r))) ∧
    classify_feedback (some 5) (some true) = .positive ∧
    classify_feedback none (some true) = .positive ∧
    classify_feedback (some 3) none = .neutral := by
  have hneg := feedback_is_negative_iff rating helpful
  have hpos := feedback_is_positive_iff rating helpful
  rw [← hneg, ← hpos]
  rw [classify_feedback_eq]
  refine ⟨?_, ?_, ?_, rfl, rfl, rfl⟩
  · by_cases hn : feedback_is_negative rating helpful <;>
      by_cases hp : feedback_is_positive rating helpful <;>
        simp [hn, hp]
  · by_cases hn : feedback_is_negative rating helpful <;>
      by_cases hp : feedback_is_positive rating helpful <;>
        simp [hn, hp]
  · by_cases hn : feedback_is_negative rating helpful <;>
      by_cases hp : feedback_is_positive rating helpful <;>
        simp [hn, hp]

/-- One feedback adjustment keeps a well-formed weight inside
`[1/2, 2]`. -/
theorem apply_adjustment_range {w : PyNum} (hw : w.WF)
    (h1 : (1 : ℚ) / 2 ≤ w.toRat) (h2 : w.toRat ≤ 2) (adj : FeedbackAdj) :
    (apply_feedback_adjustment w adj).WF ∧
      (1 : ℚ) / 2 ≤ (apply_feedback_adjustment w adj).toRat ∧
      (apply_feedback_adjustment w adj).toRat ≤ 2 := by
  have hhalf : ((500 : Int) : ℚ) / 1000 = 1 / 2 := by norm_num
  have htwo : ((2000 : Int) : ℚ) / 1000 = 2 := by norm_num
  cases adj with
  | pos =>
      show (adjusted_weight w POSITIVE_ADJUSTMENT).WF ∧
        (1 : ℚ) / 2 ≤ (adjusted_weight w POSITIVE_ADJUSTMENT).toRat ∧
        (adjusted_weight w POSITIVE_ADJUSTMENT).toRat ≤ 2
      unfold adjusted_weight
      rw [if_neg (by decide :
        ¬ PyNum.blt POSITIVE_ADJUSTMENT ⟨0, 1⟩ = true)]
      have hAWF : ((PyNum.ofInt 1).add POSITIVE_ADJUSTMENT).WF := by decide
      have hA : ((PyNum.ofInt 1).add POSITIVE_ADJUSTMENT).toRat = 11 / 10 := by
        norm_num [PyNum.ofInt, PyNum.add, PyNum.toRat, POSITIVE_ADJUSTMENT]
      have hMWF : (PyNum.mul w ((PyNum.ofInt 1).add POSITIVE_ADJUSTMENT)).WF :=
        PyNum.WF_mul hw hAWF
      have hCapWF : (MAX_POSITIVE_WEIGHT : PyNum).WF := by decide
      have hCap : (MAX_POSITIVE_WEIGHT : PyNum).toRat = 2 := by
        norm_num [MAX_POSITIVE_WEIGHT, PyNum.toRat]
      have hClampWF :
          ((PyNum.mul w ((PyNum.ofInt 1).add POSITIVE_ADJUSTMENT)).pymin
            MAX_POSITIVE_WEIGHT).WF := PyNum.WF_pymin hMWF hCapWF
      have hMulVal := PyNum.toRat_mul hw hAWF
      have hClampVal := PyNum.toRat_pymin hMWF hCapWF
      rw [hMulVal, hA, hCap] at hClampVal
      have hlo : (1 : ℚ) / 2 ≤
          ((PyNum.mul w ((PyNum.ofInt 1).add POSITIVE_ADJUSTMENT)).pymin
            MAX_POSITIVE_WEIGHT).toRat := by
        rw [hClampVal]
        apply le_min
        · nlinarith
        · norm_num
      have hhi : ((PyNum.mul w ((PyNum.ofInt 1).add POSITIVE_ADJUSTMENT)).pymin
          MAX_POSITIVE_WEIGHT).toRat ≤ 2 := by
        rw [hClampVal]
        exact min_le_right _ _
      obtain ⟨hb1, hb2⟩ := PyNum.round3_bounds hClampWF
        (by rw [hhalf]; exact hlo) (by rw [htwo]; exact hhi)
      exact ⟨PyNum.WF_round3 _, by rw [← hhalf]; exact hb1,
        by rw [← htwo]; exact hb2⟩
  | neg =>
      show (adjusted_weight w NEGATIVE_ADJUSTMENT).WF ∧
        (1 : ℚ) / 2 ≤ (adjusted_weight w NEGATIVE_ADJUSTMENT).toRat ∧
        (adjusted_weight w NEGATIVE_ADJUSTMENT).toRat ≤ 2
      unfold adjusted_weight
      rw [if_pos (by decide :
        PyNum.blt NEGATIVE_ADJUSTMENT ⟨0, 1⟩ = true)]
      have hAWF : ((PyNum.ofInt 1).add NEGATIVE_ADJUSTMENT).WF := by decide
      have hA : ((PyNum.ofInt 1).add NEGATIVE_ADJUSTMENT).toRat = 8 / 10 := by
        norm_num [PyNum.ofInt, PyNum.add, PyNum.toRat, NEGATIVE_ADJUSTMENT]
      have hMWF : (PyNum.mul w ((PyNum.ofInt 1).add NEGATIVE_ADJUSTMENT)).WF :=
        PyNum.WF_mul hw hAWF
      have hFloorWF : ((PyNum.ofInt 1).sub MAX_NEGATIVE_CHANGE).WF := by decide
      have hFloor : ((PyNum.ofInt 1).sub MAX_NEGATIVE_CHANGE).toRat = 1 / 2 := by
        norm_num [PyNum.ofInt, PyNum.sub, PyNum.toRat, MAX_NEGATIVE_CHANGE]
      have hClampWF :
          ((PyNum.mul w ((PyNum.ofInt 1).add NEGATIVE_ADJUSTMENT)).pymax
            ((PyNum.ofInt 1).sub MAX_NEGATIVE_CHANGE)).WF :=
        PyNum.WF_pymax hMWF hFloorWF
      have hMulVal := PyNum.toRat_mul hw hAWF
      have hClampVal := PyNum.toRat_pymax hMWF hFloorWF
      rw [hMulVal, hA, hFloor] at hClampVal
      have hlo : (1 : ℚ) / 2 ≤
          ((PyNum.mul w ((PyNum.ofInt 1).add NEGATIVE_ADJUSTMENT)).pymax
            ((PyNum.ofInt 1).sub MAX_NEGATIVE_CHANGE)).toRat := by
        rw [hClampVal]
        exact le_max_right _ _
      have hhi : ((PyNum.mul w ((PyNum.ofInt 1).add NEGATIVE_ADJUSTMENT)).pymax
          ((PyNum.ofInt 1).sub MAX_NEGATIVE_CHANGE)).toRat ≤ 2 := by
        rw [hClampVal]
        apply max_le
        · nlinarith
        · norm_num
      obtain ⟨hb1, hb2⟩ := PyNum.round3_bounds hClampWF
        (by rw [hhalf]; exact hlo) (by rw [htwo]; exact hhi)
      exact ⟨PyNum.WF_round3 _, by rw [← hhalf]; exact hb1,
        by rw [← htwo]; exact hb2⟩

/-- C6 (amended): starting from the default weight 1.0, every stored
weight along any finite sequence of positive and negative adjustments
stays in `[0.5, 2.0]`; the stored value is the clamped update
`min(old * 1.1, 2.0)` / `max(old * 0.8, 0.5)` rounded to 3 decimals. -/
theorem c6_weight_clamp (adjs : List FeedbackAdj) (w : PyNum)
    (hw : w ∈ weight_trajectory ⟨1, 1⟩ adjs) :
    (1 : ℚ) / 2 ≤ w.toRat ∧ w.toRat ≤ 2 := by
  have main : ∀ (l : List FeedbackAdj) (w0 : PyNum), w0.WF →
      (1 : ℚ) / 2 ≤ w0.toRat → w0.toRat ≤ 2 →
      ∀ w, w ∈ weight_trajectory w0 l →
        (1 : ℚ) / 2 ≤ w.toRat ∧ w.toRat ≤ 2 := by
    intro l
    induction l with
    | nil =>
        intro w0 _ _ _ w hmem
        simp [weight_trajectory] at hmem
    | cons a rest ih =>
        intro w0 hWF h1 h2 w hmem
        simp only [weight_trajectory, List.mem_cons] at hmem
        obtain ⟨hWF', h1', h2'⟩ := apply_adjustment_range hWF h1 h2 a
        rcases hmem with rfl | hmem
        · exact ⟨h1', h2'⟩
        · exact ih (apply_feedback_adjustment w0 a) hWF' h1' h2' w hmem
  refine main adjs ⟨1, 1⟩ (by decide) ?_ ?_ w hw
  · norm_num [PyNum.toRat]
  · norm_num [PyNum.toRat]

/-- C6 witness: the first positive adjustment from 1.0 stores 1.1,
inside the clamp interval. -/
theorem c6_weight_clamp_witness :
    (1 : ℚ) / 2 ≤ (PyNum.toRat ⟨1100, 1000⟩) ∧
      (PyNum.toRat ⟨1100, 1000⟩) ≤ 2 :=
  c6_weight_clamp [.pos] ⟨1100, 1000⟩
    (by rw [show weight_trajectory ⟨1, 1⟩ [.pos] = [⟨1100, 1000⟩] from rfl]
        exact List.mem_singleton.mpr rfl)

/-- Folding the threshold check over counters that are all below the
threshold never touches the mindscape. -/
theorem negative_fold_no_threshold (counts : List (String × Nat))
    (m : Mindscape) (nowIso : String)
    (h : ∀ ty cnt, (ty, cnt) ∈ counts → cnt < NEGATIVE_FEEDBACK_THRESHOLD) :
    counts.foldlM
      (fun acc (kv : String × Nat) =>
        if NEGATIVE_FEEDBACK_THRESHOLD ≤ kv.2 then
          adjust_trait_weights acc (get_trait_mapping kv.1)
            NEGATIVE_ADJUSTMENT nowIso
        else pure acc)
      m = .ok m := by
  induction counts generalizing m with
  | nil => rfl
  | cons kv rest ih =>
      have hkv : kv.2 < NEGATIVE_FEEDBACK_THRESHOLD :=
        h kv.1 kv.2 (List.mem_cons_self _ _)
      simp only [List.foldlM_cons]
      rw [if_neg (by omega)]
      exact ih m (fun ty cnt hmem => h ty cnt (List.mem_cons_of_mem kv hmem))

/-- C7 (amended): processing a negative feedback adjusts the mapped
traits of *every* suggestion type whose windowed negative count has
reached the threshold 5, not only the processed feedback's type.  In
particular: if no type has reached the threshold the mindscape is
untouched; feedback rows outside the trailing 7-day window never
count; and when exactly one type sits at the threshold the processing
performs exactly one adjustment — of that type's mapped traits. -/
theorem c7_negative_threshold (m : Mindscape) (store : List FeedbackRec)
    (t : Int) (nowIso : String) :
    ((∀ ty cnt, (ty, cnt) ∈ type_counts (negative_window store t) →
        cnt < NEGATIVE_FEEDBACK_THRESHOLD) →
      process_negative_feedback m store t nowIso = .ok m) ∧
    (∀ f : FeedbackRec, f.created_at < t - 7 * 86400 ∨ t < f.created_at →
      process_negative_feedback m (f :: store) t nowIso =
        process_negative_feedback m store t nowIso) ∧
    (∀ ty cnt, type_counts (negative_window store t) = [(ty, cnt)] →
      NEGATIVE_FEEDBACK_THRESHOLD ≤ cnt →
      process_negative_feedback m store t nowIso =
        adjust_trait_weights m (get_trait_mapping ty)
          NEGATIVE_ADJUSTMENT nowIso) := by
  refine ⟨?_, ?_, ?_⟩
  · intro h
    unfold process_negative_feedback
    exact negative_fold_no_threshold _ m nowIso h
  · intro f hf
    have hwin : feedback_in_window f t = false := by
      unfold feedback_in_window
      rcases hf with hf | hf
      · have hd : decide (t - 7 * 86400 ≤ f.created_at) = false :=
          decide_eq_false (by omega)
        rw [hd, Bool.false_and]
      · have hd : decide (f.created_at ≤ t) = false :=
          decide_eq_false (by omega)
        rw [hd, Bool.and_false]
    unfold process_negative_feedback negative_window
    simp [List.filter_cons, hwin]
  · intro ty cnt hcounts hthresh
    unfold process_negative_feedback
    rw [hcounts]
    simp only [List.foldlM_cons, List.foldlM_nil]
    rw [if_pos hthresh]
    exact bind_pure _

/-- C7 witness: with five windowed `focus_block` negatives and one
`break_reminder` negative, every count is what the theorem needs and the
single-type clause applies to a store of five `focus_block` rows. -/
theorem c7_negative_threshold_witness :
    process_negative_feedback c7mind (List.take 5 c7store) 600
        "2025-06-09T00:00:00" =
      adjust_trait_weights c7mind (get_trait_mapping "focus_block")
        NEGATIVE_ADJUSTMENT "2025-06-09T00:00:00" ∧
    process_negative_feedback c7mind [] 600 "2025-06-09T00:00:00" =
      .ok c7mind :=
  ⟨(c7_negative_threshold c7mind (List.take 5 c7store) 600
      "2025-06-09T00:00:00").2.2 "focus_block" 5 rfl (by decide),
   (c7_negative_threshold c7mind [] 600 "2025-06-09T00:00:00").1
      (by intro ty cnt hmem; simp [type_counts, negative_window] at hmem)⟩

/-- C10: a successful merge always returns an entry with exactly the
keys `value`, `confidence`, `sample_size` — any `weight`,
`last_adjusted` or `adjustment_reason` previously on the trait is gone,
and the weight adjuster's subsequent `get("weight", 1.0)` read sees the
default 1.0 again. -/
theorem c10_merge_drops_weight (e n m : Dict)
    (h : merge_trait_values e n = .ok m) :
    dictKeys m = ["value", "confidence", "sample_size"] ∧
    dictGet m "weight" = none ∧
    dictGet m "last_adjusted" = none ∧
    dictGet m "adjustment_reason" = none ∧
    pyNumView (dictGetD m "weight" (.vNum ⟨1, 1⟩)) = some ⟨1, 1⟩ := by
  unfold merge_trait_values at h
  simp only [bind, Except.bind, pure, Except.pure] at h
  repeat' split at h
  all_goals
    first
      | (injection h with h; subst h; exact ⟨rfl, rfl, rfl, rfl, rfl⟩)
      | exact Except.noConfusion h

/-- C10 witness: merging a trait entry carrying feedback-written fields
with a fresh delta drops those fields. -/
theorem c10_merge_drops_weight_witness :
    dictKeys [("value", Val.vNum ⟨150, 2⟩),
      ("confidence", Val.vNum ⟨850, 1000⟩),
      ("sample_size", Val.vNum ⟨2, 1⟩)] =
      ["value", "confidence", "sample_size"] ∧
    dictGet [("value", Val.vNum ⟨150, 2⟩),
      ("confidence", Val.vNum ⟨850, 1000⟩),
      ("sample_size", Val.vNum ⟨2, 1⟩)] "weight" = none ∧
    dictGet [("value", Val.vNum ⟨150, 2⟩),
      ("confidence", Val.vNum ⟨850, 1000⟩),
      ("sample_size", Val.vNum ⟨2, 1⟩)] "last_adjusted" = none ∧
    dictGet [("value", Val.vNum ⟨150, 2⟩),
      ("confidence", Val.vNum ⟨850, 1000⟩),
      ("sample_size", Val.vNum ⟨2, 1⟩)] "adjustment_reason" = none ∧
    pyNumView (dictGetD [("value", Val.vNum ⟨150, 2⟩),
      ("confidence", Val.vNum ⟨850, 1000⟩),
      ("sample_size", Val.vNum ⟨2, 1⟩)] "weight" (.vNum ⟨1, 1⟩)) =
      some ⟨1, 1⟩ :=
  c10_merge_drops_weight c3exampleExisting c3exampleIncoming _ rfl

/-- The executable integer rounding agrees with the rational
round-half-even: `round3` denotes `round(·, 3)` on rationals. -/
theorem PyNum.round3_toRat {a : PyNum} (ha : a.WF) :
    a.round3.toRat = roundHalfEvenQ a.toRat := by
  have hd : (0 : Int) < (a.den : Int) := by exact_mod_cast ha
  have hdq : (0 : ℚ) < ((a.den : ℕ) : ℚ) := by exact_mod_cast ha
  have hxval : (1000 * a.toRat : ℚ) =
      ((1000 * a.num : Int) : ℚ) / ((a.den : ℕ) : ℚ) := by
    rw [PyNum.toRat]
    push_cast
    ring
  have hfl : ⌊(1000 * a.toRat : ℚ)⌋ = (1000 * a.num).fdiv (a.den : Int) := by
    rw [hxval, Rat.floor_intCast_div_natCast,
      Int.fdiv_eq_ediv _ (le_of_lt hd)]
  have hfrac : (1000 * a.toRat : ℚ) - ((1000 * a.num).fdiv (a.den : Int) : ℚ) =
      ((1000 * a.num - (1000 * a.num).fdiv (a.den : Int) * a.den : Int) : ℚ) /
        ((a.den : ℕ) : ℚ) := by
    rw [hxval]
    push_cast
    field_simp
    ring
  -- the two strict branch conditions, cast to the integer side
  have h1 : ((1000 * a.toRat : ℚ) - ((1000 * a.num).fdiv (a.den : Int) : ℚ) < 1 / 2) ↔
      (2 * (1000 * a.num - (1000 * a.num).fdiv (a.den : Int) * (a.den : Int)) <
        (a.den : Int)) := by
    rw [hfrac, div_lt_iff hdq]
    rw [show (1 : ℚ) / 2 * ((a.den : ℕ) : ℚ) = (((a.den : Int) : ℚ)) / 2 from by
      push_cast; ring]
    rw [lt_div_iff (by norm_num : (0 : ℚ) < 2)]
    constructor
    · intro hh
      have : ((2 * (1000 * a.num - (1000 * a.num).fdiv (a.den : Int) * (a.den : Int)) : Int) : ℚ) <
          (((a.den : Int)) : ℚ) := by push_cast; push_cast at hh; linarith
      exact_mod_cast this
    · intro hh
      have : ((2 * (1000 * a.num - (1000 * a.num).fdiv (a.den : Int) * (a.den : Int)) : Int) : ℚ) <
          (((a.den : Int)) : ℚ) := by exact_mod_cast hh
      push_cast at this
      push_cast
      linarith
  have h2 : ((1 : ℚ) / 2 < (1000 * a.toRat : ℚ) - ((1000 * a.num).fdiv (a.den : Int) : ℚ)) ↔
      ((a.den : Int) <
        2 * (1000 * a.num - (1000 * a.num).fdiv (a.den : Int) * (a.den : Int))) := by
    rw [hfrac, lt_div_iff hdq]
    rw [show (1 : ℚ) / 2 * ((a.den : ℕ) : ℚ) = (((a.den : Int) : ℚ)) / 2 from by
      push_cast; ring]
    rw [div_lt_iff (by norm_num : (0 : ℚ) < 2)]
    constructor
    · intro hh
      have : (((a.den : Int)) : ℚ) <
          ((2 * (1000 * a.num - (1000 * a.num).fdiv (a.den : Int) * (a.den : Int)) : Int) : ℚ) := by
        push_cast; push_cast at hh; linarith
      exact_mod_cast this
    · intro hh
      have : (((a.den : Int)) : ℚ) <
          ((2 * (1000 * a.num - (1000 * a.num).fdiv (a.den : Int) * (a.den : Int)) : Int) : ℚ) := by
        exact_mod_cast hh
      push_cast at this
      push_cast
      linarith
  -- expose both sides
  have hz : a.round3 = ⟨(if 2 * (1000 * a.num - (1000 * a.num).fdiv (a.den : Int) * (a.den : Int)) < (a.den : Int)
      then (1000 * a.num).fdiv (a.den : Int)
      else if (a.den : Int) < 2 * (1000 * a.num - (1000 * a.num).fdiv (a.den : Int) * (a.den : Int))
      then (1000 * a.num).fdiv (a.den : Int) + 1
      else if (1000 * a.num).fdiv (a.den : Int) % 2 = 0
      then (1000 * a.num).fdiv (a.den : Int)
      else (1000 * a.num).fdiv (a.den : Int) + 1), 1000⟩ := rfl
  rw [hz]
  unfold roundHalfEvenQ rheInt
  rw [hfl]
  have hnorm : ∀ z : Int, (PyNum.toRat ⟨z, 1000⟩) = (z : ℚ) / 1000 := by
    intro z
    rw [PyNum.toRat]
    norm_num
  by_cases hc1 : 2 * (1000 * a.num - (1000 * a.num).fdiv (a.den : Int) * (a.den : Int)) < (a.den : Int)
  · rw [if_pos hc1, if_pos (h1.mpr hc1), hnorm]
  · rw [if_neg hc1, if_neg (fun hq => hc1 (h1.mp hq))]
    by_cases hc2 : (a.den : Int) < 2 * (1000 * a.num - (1000 * a.num).fdiv (a.den : Int) * (a.den : Int))
    · rw [if_pos hc2, if_pos (h2.mpr hc2), hnorm]
    · rw [if_neg hc2, if_neg (fun hq => hc2 (h2.mp hq))]
      by_cases hc3 : (1000 * a.num).fdiv (a.den : Int) % 2 = 0
      · rw [if_pos hc3,
          if_pos (Int.dvd_iff_emod_eq_zero.mpr hc3), hnorm]
      · rw [if_neg hc3,
          if_neg (fun hq => hc3 (Int.dvd_iff_emod_eq_zero.mp hq)), hnorm]

/-- Inversion of a successful `Except` bind. -/
theorem exceptBind_ok {α β : Type} (x : Except PyErr α) (f : α → Except PyErr β)
    (b : β) : (x >>= f) = .ok b ↔ ∃ a, x = .ok a ∧ f a = .ok b := by
  cases x with
  | error e =>
      constructor
      · intro h
        exact absurd h (by simp [Bind.bind, Except.bind])
      · rintro ⟨a, ha, _⟩
        exact absurd ha (by simp)
  | ok a =>
      constructor
      · intro h
        exact ⟨a, rfl, h⟩
      · rintro ⟨a2, ha, hf⟩
        injection ha with ha
        subst ha
        exact hf

/-- `Val.beq` is reflexive on hashable (scalar) values. -/
theorem beq_refl_of_hashable {v : Val} (h : hashableVal v = true) :
    Val.beq v v = true := by
  cases v with
  | vNone => rfl
  | vBool b => simp [Val.beq]
  | vNum q => simp [Val.beq, PyNum.beq]
  | vStr s => simp [Val.beq]
  | vList xs => exact absurd h (by simp [hashableVal])
  | vDict d => exact absurd h (by simp [hashableVal])

/-- Deduplication only keeps elements of the input. -/
theorem dedupAux_subset (l seen : List Val) : dedupAux l seen ⊆ l := by
  induction l generalizing seen with
  | nil => simp [dedupAux]
  | cons x rest ih =>
      unfold dedupAux
      split
      · exact List.Subset.trans (ih seen) (List.subset_cons_self _ _)
      · intro v hv
        rcases List.mem_cons.mp hv with rfl | hv
        · exact List.mem_cons_self _ _
        · exact List.mem_cons_of_mem _ (ih (x :: seen) hv)

/-- Every input element has a Python-equal representative either in the
deduplicated output or among the already-seen elements. -/
theorem dedupAux_covers (l : List Val) (seen : List Val)
    (hl : l.all hashableVal = true) :
    ∀ v ∈ l, (∃ z ∈ dedupAux l seen, Val.beq z v = true) ∨
      ∃ z ∈ seen, Val.beq z v = true := by
  induction l generalizing seen with
  | nil => intro v hv; exact absurd hv (by simp)
  | cons x rest ih =>
      have hx : hashableVal x = true := by
        simp only [List.all_cons, Bool.and_eq_true] at hl
        exact hl.1
      have hrest : rest.all hashableVal = true := by
        simp only [List.all_cons, Bool.and_eq_true] at hl
        exact hl.2
      intro v hv
      unfold dedupAux
      by_cases hseen : seen.any (fun y => Val.beq y x) = true
      · rw [if_pos hseen]
        rcases List.mem_cons.mp hv with rfl | hv
        · right
          obtain ⟨y, hy, hbeq⟩ := List.any_eq_true.mp hseen
          exact ⟨y, hy, hbeq⟩
        · exact ih seen hrest v hv
      · rw [if_neg hseen]
        rcases List.mem_cons.mp hv with rfl | hv
        · exact Or.inl ⟨v, List.mem_cons_self _ _, beq_refl_of_hashable hx⟩
        · rcases ih (x :: seen) hrest v hv with ⟨z, hz, hbeq⟩ | ⟨z, hz, hbeq⟩
          · exact Or.inl ⟨z, List.mem_cons_of_mem _ hz, hbeq⟩
          · rcases List.mem_cons.mp hz with rfl | hz
            · exact Or.inl ⟨z, List.mem_cons_self _ _, hbeq⟩
            · exact Or.inr ⟨z, hz, hbeq⟩

/-- Evaluation of the confidence/sample part of `_merge_trait_values`
under numeric confidence and sample-size entries. -/
theorem merge_trait_values_eval (existing newv : Dict) (c1 c2 n1 n2 qc : PyNum)
    (hc1 : dictGet existing "confidence" = some (.vNum c1))
    (hc2 : dictGet newv "confidence" = some (.vNum c2))
    (hn1 : dictGet existing "sample_size" = some (.vNum n1))
    (hn2 : dictGet newv "sample_size" = some (.vNum n2))
    (hden : ((c1.mul n1).add (c2.mul n2)).div (n1.add n2) = some qc) :
    merge_trait_values existing newv =
      (merge_value_case (dictGetD existing "value" .vNone)
          (dictGetD newv "value" .vNone) n1 n2 (n1.add n2) c1 c2) >>=
        fun mv => Except.ok
          [("value", mv), ("confidence", .vNum qc.round3),
           ("sample_size", .vNum (n1.add n2))] := by
  unfold merge_trait_values
  rw [show dictGetD existing "confidence" (.vNum ⟨5, 10⟩) = .vNum c1 from by
    unfold dictGetD; rw [hc1]; rfl]
  rw [show dictGetD newv "confidence" (.vNum ⟨5, 10⟩) = .vNum c2 from by
    unfold dictGetD; rw [hc2]; rfl]
  rw [show dictGetD existing "sample_size" (.vNum ⟨1, 1⟩) = .vNum n1 from by
    unfold dictGetD; rw [hn1]; rfl]
  rw [show dictGetD newv "sample_size" (.vNum ⟨1, 1⟩) = .vNum n2 from by
    unfold dictGetD; rw [hn2]; rfl]
  simp only [pyNumOrTypeError, pyNumView, hden, bind, Except.bind, pure]
  rfl

/-- The numeric branch of the value merge. -/
theorem merge_value_case_numeric (a b es ns total ec nc q : PyNum)
    (hdiv : ((a.mul es).add (b.mul ns)).div total = some q) :
    merge_value_case (.vNum a) (.vNum b) es ns total ec nc = .ok (.vNum q) := by
  unfold merge_value_case
  simp only [pyNumView, hdiv]

/-- The list branch of the value merge, under hashable elements. -/
theorem merge_value_case_lists (xs ys : List Val) (es ns total ec nc : PyNum)
    (hhash : (xs ++ ys).all hashableVal = true) :
    merge_value_case (.vList xs) (.vList ys) es ns total ec nc =
      .ok (.vList (dedupAux (xs ++ ys) [])) := by
  unfold merge_value_case
  simp only [pyNumView, pyListSet, hhash, if_pos, Except.map]

/-- The categorical branch of the value merge. -/
theorem merge_value_case_categorical (ev nv : Val) (es ns total ec nc : PyNum)
    (hnum : pyNumView ev = none ∨ pyNumView nv = none)
    (hlist : (∀ xs, ev ≠ .vList xs) ∨ (∀ ys, nv ≠ .vList ys)) :
    merge_value_case ev nv es ns total ec nc =
      .ok (if PyNum.blt ec nc then nv else ev) := by
  unfold merge_value_case
  rcases ev with _ | b1 | q1 | s1 | xs | d1 <;>
    rcases nv with _ | b2 | q2 | s2 | ys | d2 <;>
      simp only [pyNumView] <;>
      first
        | (rcases hnum with hn | hn <;> exact Option.noConfusion hn)
        | (rcases hlist with hl | hl <;> exact absurd rfl (hl _))
        | (split <;> rfl)
        | rfl

/-- The value merge always succeeds when list pairs are hashable and
the total sample count is nonzero. -/
theorem merge_value_case_ok (ev nv : Val) (es ns total ec nc : PyNum)
    (htot : total.num ≠ 0)
    (hhash : ∀ xs ys, ev = .vList xs → nv = .vList ys →
      (xs ++ ys).all hashableVal = true) :
    ∃ mv, merge_value_case ev nv es ns total ec nc = .ok mv := by
  unfold merge_value_case
  rcases ev with _ | b1 | q1 | s1 | xs | d1 <;>
    rcases nv with _ | b2 | q2 | s2 | ys | d2 <;>
      simp only [pyNumView] <;>
      first
        | (rw [PyNum.div_eq_some htot]; exact ⟨_, rfl⟩)
        | (have hh := hhash _ _ rfl rfl
           simp only [pyListSet, hh, if_pos, Except.map]
           exact ⟨_, rfl⟩)
        | (split <;> exact ⟨_, rfl⟩)

/-- The first entry of a dict wins its key. -/
theorem dictGet_head (k : String) (v : Val) (rest : Dict) :
    dictGet ((k, v) :: rest) k = some v := by
  unfold dictGet
  simp

/-- C3 (amended): merging an existing entry with an incoming delta
yields `sample_size = old_n + delta_n` and `confidence =
round((old_c*old_n + delta_c*delta_n)/(old_n+delta_n), 3)` — the
weighted average is stored rounded to 3 decimals, not exactly; numeric
value pairs get the exact sample-weighted average, list pairs their set
union, and otherwise the side with strictly higher confidence wins with
ties keeping the existing value. -/
theorem c3_merge_weighted (existing newv : Dict) (c1 c2 n1 n2 : PyNum)
    (hc1 : dictGet existing "confidence" = some (.vNum c1))
    (hc2 : dictGet newv "confidence" = some (.vNum c2))
    (hn1 : dictGet existing "sample_size" = some (.vNum n1))
    (hn2 : dictGet newv "sample_size" = some (.vNum n2))
    (hw1 : c1.WF) (hw2 : c2.WF) (hw3 : n1.WF) (hw4 : n2.WF)
    (hsum : n1.toRat + n2.toRat ≠ 0)
    (hhash : ∀ xs ys, dictGetD existing "value" .vNone = .vList xs →
      dictGetD newv "value" .vNone = .vList ys →
      (xs ++ ys).all hashableVal = true) :
    ∃ m, merge_trait_values existing newv = .ok m ∧
      (∃ mc, dictGet m "confidence" = some (.vNum mc) ∧
        mc.toRat = roundHalfEvenQ
          ((c1.toRat * n1.toRat + c2.toRat * n2.toRat) /
            (n1.toRat + n2.toRat))) ∧
      (∃ ts, dictGet m "sample_size" = some (.vNum ts) ∧
        ts.toRat = n1.toRat + n2.toRat) ∧
      (∀ a b, dictGetD existing "value" .vNone = .vNum a →
        dictGetD newv "value" .vNone = .vNum b → a.WF → b.WF →
        ∃ q, dictGet m "value" = some (.vNum q) ∧
          q.toRat = (a.toRat * n1.toRat + b.toRat * n2.toRat) /
            (n1.toRat + n2.toRat)) ∧
      (∀ xs ys, dictGetD existing "value" .vNone = .vList xs →
        dictGetD newv "value" .vNone = .vList ys →
        ∃ zs, dictGet m "value" = some (.vList zs) ∧ zs ⊆ xs ++ ys ∧
          ∀ v ∈ xs ++ ys, ∃ z ∈ zs, Val.beq z v = true) ∧
      (∀ ev nv, dictGetD existing "value" .vNone = ev →
        dictGetD newv "value" .vNone = nv →
        pyNumView ev = none ∨ pyNumView nv = none →
        ((∀ xs, ev ≠ .vList xs) ∨ (∀ ys, nv ≠ .vList ys)) →
        (c1.toRat < c2.toRat → dictGet m "value" = some nv) ∧
        (c2.toRat ≤ c1.toRat → dictGet m "value" = some ev)) := by
  have hTotWF : (n1.add n2).WF := PyNum.WF_add hw3 hw4
  have hTotRat : (n1.add n2).toRat = n1.toRat + n2.toRat :=
    PyNum.toRat_add hw3 hw4
  have hTotNum : (n1.add n2).num ≠ 0 := by
    intro h0
    apply hsum
    rw [← hTotRat]
    unfold PyNum.toRat
    rw [h0]
    simp
  have hTotAbs : 0 < (n1.add n2).num.natAbs := Int.natAbs_pos.mpr hTotNum
  have hNumerWF : ((c1.mul n1).add (c2.mul n2)).WF :=
    PyNum.WF_add (PyNum.WF_mul hw1 hw3) (PyNum.WF_mul hw2 hw4)
  have hqc := @PyNum.div_eq_some ((c1.mul n1).add (c2.mul n2)) (n1.add n2)
    hTotNum
  have heval := merge_trait_values_eval existing newv c1 c2 n1 n2 _
    hc1 hc2 hn1 hn2 hqc
  obtain ⟨mv, hmv⟩ := merge_value_case_ok (dictGetD existing "value" .vNone)
    (dictGetD newv "value" .vNone) n1 n2 (n1.add n2) c1 c2 hTotNum hhash
  have hQCWF := PyNum.WF_div hNumerWF hTotAbs hqc
  have hQCRat := PyNum.toRat_div hNumerWF hTotWF hqc
  rw [PyNum.toRat_add (PyNum.WF_mul hw1 hw3) (PyNum.WF_mul hw2 hw4),
    PyNum.toRat_mul hw1 hw3, PyNum.toRat_mul hw2 hw4, hTotRat] at hQCRat
  have hm : merge_trait_values existing newv =
      .ok [("value", mv),
        ("confidence", .vNum (PyNum.round3 ⟨(if (n1.add n2).num < 0 then
          -(((c1.mul n1).add (c2.mul n2)).num * (n1.add n2).den)
          else ((c1.mul n1).add (c2.mul n2)).num * (n1.add n2).den),
          ((c1.mul n1).add (c2.mul n2)).den * (n1.add n2).num.natAbs⟩)),
        ("sample_size", .vNum (n1.add n2))] := by
    rw [heval, hmv]
    rfl
  refine ⟨_, hm, ⟨_, rfl, ?_⟩, ⟨n1.add n2, rfl, hTotRat⟩, ?_, ?_, ?_⟩
  · rw [PyNum.round3_toRat hQCWF, hQCRat]
  · intro a b hva hvb hwa hwb
    have hdiv2 := @PyNum.div_eq_some ((a.mul n1).add (b.mul n2)) (n1.add n2)
      hTotNum
    rw [hva, hvb, merge_value_case_numeric _ _ _ _ _ _ _ _ hdiv2] at hmv
    injection hmv with hmv
    subst hmv
    refine ⟨_, dictGet_head _ _ _, ?_⟩
    have hvWF : ((a.mul n1).add (b.mul n2)).WF :=
      PyNum.WF_add (PyNum.WF_mul hwa hw3) (PyNum.WF_mul hwb hw4)
    have := PyNum.toRat_div hvWF hTotWF hdiv2
    rw [PyNum.toRat_add (PyNum.WF_mul hwa hw3) (PyNum.WF_mul hwb hw4),
      PyNum.toRat_mul hwa hw3, PyNum.toRat_mul hwb hw4, hTotRat] at this
    exact this
  · intro xs ys hva hvb
    have hh := hhash xs ys hva hvb
    rw [hva, hvb, merge_value_case_lists _ _ _ _ _ _ _ hh] at hmv
    injection hmv with hmv
    subst hmv
    refine ⟨dedupAux (xs ++ ys) [], dictGet_head _ _ _, dedupAux_subset _ _, ?_⟩
    intro v hv
    rcases dedupAux_covers (xs ++ ys) [] hh v hv with ⟨z, hz, hbeq⟩ | ⟨z, hz, _⟩
    · exact ⟨z, hz, hbeq⟩
    · exact absurd hz (by simp)
  · intro ev nv hva hvb hnum hlist
    rw [hva, hvb, merge_value_case_categorical ev nv _ _ _ _ _ hnum hlist] at hmv
    injection hmv with hmv
    constructor
    · intro hlt
      have hblt : PyNum.blt c1 c2 = true := (PyNum.blt_iff hw1 hw2).mpr hlt
      rw [show dictGet [("value", mv),
        ("confidence", _), ("sample_size", _)] "value" = some mv from rfl]
      rw [← hmv, hblt]
      simp
    · intro hle
      have hblt : PyNum.blt c1 c2 = false := by
        rw [← Bool.not_eq_true]
        intro hq
        exact absurd ((PyNum.blt_iff hw1 hw2).mp hq) (not_lt.mpr hle)
      rw [show dictGet [("value", mv),
        ("confidence", _), ("sample_size", _)] "value" = some mv from rfl]
      rw [← hmv, hblt]
      simp

/-- C3 witness: the spec's example — merging `{90, 0.9, 1}` into
`{60, 0.8, 1}` gives value 75, confidence `round(0.85, 3) = 0.85`,
sample size 2. -/
theorem c3_merge_weighted_witness :
    (∃ m, merge_trait_values c3exampleExisting c3exampleIncoming = .ok m ∧
      (∃ mc, dictGet m "confidence" = some (.vNum mc) ∧
        mc.toRat = roundHalfEvenQ ((PyNum.toRat ⟨8, 10⟩ * PyNum.toRat ⟨1, 1⟩ +
          PyNum.toRat ⟨9, 10⟩ * PyNum.toRat ⟨1, 1⟩) /
          (PyNum.toRat ⟨1, 1⟩ + PyNum.toRat ⟨1, 1⟩))) ∧
      (∃ ts, dictGet m "sample_size" = some (.vNum ts) ∧
        ts.toRat = PyNum.toRat ⟨1, 1⟩ + PyNum.toRat ⟨1, 1⟩) ∧
      (∃ q, dictGet m "value" = some (.vNum q) ∧
        q.toRat = (PyNum.toRat ⟨60, 1⟩ * PyNum.toRat ⟨1, 1⟩ +
          PyNum.toRat ⟨90, 1⟩ * PyNum.toRat ⟨1, 1⟩) /
          (PyNum.toRat ⟨1, 1⟩ + PyNum.toRat ⟨1, 1⟩))) ∧
    PyNum.toRat ⟨150, 2⟩ = 75 ∧
    roundHalfEvenQ ((PyNum.toRat ⟨8, 10⟩ * PyNum.toRat ⟨1, 1⟩ +
      PyNum.toRat ⟨9, 10⟩ * PyNum.toRat ⟨1, 1⟩) /
      (PyNum.toRat ⟨1, 1⟩ + PyNum.toRat ⟨1, 1⟩)) = 0.85 := by
  refine ⟨?_, by norm_num [PyNum.toRat], ?_⟩
  · obtain ⟨m, hm, hconf, hsamp, hnum, _, _⟩ :=
      c3_merge_weighted c3exampleExisting c3exampleIncoming
        ⟨8, 10⟩ ⟨9, 10⟩ ⟨1, 1⟩ ⟨1, 1⟩ rfl rfl rfl rfl
        (by decide) (by decide) (by decide) (by decide)
        (by norm_num [PyNum.toRat])
        (fun xs ys hxs _ =>
          Val.noConfusion (show Val.vNum ⟨60, 1⟩ = Val.vList xs from hxs))
    refine ⟨m, hm, hconf, hsamp, ?_⟩
    exact hnum ⟨60, 1⟩ ⟨90, 1⟩ rfl rfl (by decide) (by decide)
  · rw [show ((PyNum.toRat ⟨8, 10⟩ * PyNum.toRat ⟨1, 1⟩ +
      PyNum.toRat ⟨9, 10⟩ * PyNum.toRat ⟨1, 1⟩) /
      (PyNum.toRat ⟨1, 1⟩ + PyNum.toRat ⟨1, 1⟩)) = 17 / 20 from by
        norm_num [PyNum.toRat]]
    unfold roundHalfEvenQ rheInt
    norm_num

/-- C4 witness: a fresh task (attempts 0) failed with no retry goes terminal;
failed with retry 60 returns to pending at run_after 60 with attempts 1;
the worker backoff starts at 60 s, strictly increases, and stays under the
3600 s cap; the worker path reaches terminal `failed` exactly at attempts 3. -/
theorem c4_retry_and_backoff_witness :
    (mark_failed ⟨0, .pending, 0, ""⟩ "e" none).status = .failed ∧
    (mark_failed ⟨0, .pending, 0, ""⟩ "e" (some 60)).attempts = 1 ∧
    (mark_failed ⟨0, .pending, 0, ""⟩ "e" (some 60)).status = .pending ∧
    (mark_failed ⟨0, .pending, 0, ""⟩ "e" (some 60)).run_after = 60 ∧
    ((worker_mark_failed 0 ⟨0, .pending, 0, ""⟩ "e").status = .failed ↔
      (worker_mark_failed 0 ⟨0, .pending, 0, ""⟩ "e").attempts = 3) ∧
    (worker_mark_failed 0 ⟨0, .pending, 0, ""⟩ "e").run_after =
      0 + retry_delay_seconds 0 ∧
    retry_delay_seconds 0 < retry_delay_seconds 1 ∧
    retry_delay_seconds 0 ≤ 3600 := by
  obtain ⟨h1, h2, h3, h4, h5, h6, h7, h8⟩ :=
    c4_retry_and_backoff ⟨0, .pending, 0, ""⟩ "e" 0 (by decide)
  exact ⟨h1, h2 60, (h3 60 (by decide)).1, (h3 60 (by decide)).2, h5,
    h6 (by decide), h7, h8⟩

theorem mapM_decorate_eq (sgs : List Val) (keyed : List ((ℚ × ℚ) × Val))
    (h : sgs.mapM (fun s => (suggestion_sort_key s).map (fun k => (k, s))) =
      .ok keyed) :
    keyed.map Prod.snd = sgs ∧ ∀ p ∈ keyed, suggestion_sort_key p.2 = .ok p.1 := by
  induction sgs generalizing keyed with
  | nil =>
      simp only [List.mapM_nil] at h
      injection h with h
      subst h
      exact ⟨rfl, by simp⟩
  | cons x xs ih =>
      rw [List.mapM_cons] at h
      rw [exceptBind_ok] at h
      obtain ⟨y, hy, h⟩ := h
      rw [exceptBind_ok] at h
      obtain ⟨ys, hys, h⟩ := h
      injection h with h
      subst h
      rcases hk : suggestion_sort_key x with e | k
      · rw [hk] at hy
        exact absurd hy (by simp [Except.map])
      · rw [hk] at hy
        rw [show (Except.ok k).map (fun k => (k, x)) =
          (Except.ok (k, x) : Except PyErr ((ℚ × ℚ) × Val)) from rfl] at hy
        injection hy with hy
        subst hy
        obtain ⟨hmap, hall⟩ := ih ys hys
        refine ⟨by simp [hmap], ?_⟩
        intro p hp
        rcases List.mem_cons.mp hp with rfl | hp
        · exact hk
        · exact hall p hp

/-- C2 (amended): the overlay's suggestion list is the first 5 of a
permutation of the generated suggestions ordered by descending weight,
with weight ties broken by ascending priority rank — `low` before
`medium` before `high`, unknown priorities ranking as `medium`. -/
theorem c2_suggestion_ordering (m : Mindscape) (sgs : List Val) (ctx : Dict)
    (ov : Dict) (h : build_contextual_overlay m sgs ctx = .ok ov) :
    ∃ sorted : List Val, List.Perm sgs sorted ∧
      dictGet ov "suggestions" = some (.vList (sorted.take 5)) ∧
      sorted.Pairwise suggKeyLE := by
  unfold build_contextual_overlay at h
  simp only [] at h
  rcases hcs : dictGetD m.traits "current_state" (Val.vDict [])
    with _ | b | q | s | xs | d <;> rw [hcs] at h
  case vDict =>
    rcases hkeyed :
        sgs.mapM (fun s => (suggestion_sort_key s).map (fun k => (k, s)))
      with e | keyed <;> rw [hkeyed] at h
    case error => exact Except.noConfusion h
    injection h with h
    subst h
    obtain ⟨hmap, hall⟩ := mapM_decorate_eq sgs keyed hkeyed
    refine ⟨(List.insertionSort overlaySortRel keyed).map Prod.snd, ?_, rfl, ?_⟩
    · rw [← hmap]
      exact ((List.perm_insertionSort overlaySortRel keyed).map Prod.snd).symm
    · rw [List.pairwise_map]
      refine List.Pairwise.imp_of_mem ?_
        (List.sorted_insertionSort overlaySortRel keyed)
      intro a b ha hb hab
      intro ka kb hka hkb
      have ha' := hall a ((List.perm_insertionSort overlaySortRel keyed).subset ha)
      have hb' := hall b ((List.perm_insertionSort overlaySortRel keyed).subset hb)
      rw [ha'] at hka
      injection hka with hka
      subst hka
      rw [hb'] at hkb
      injection hkb with hkb
      subst hkb
      exact hab
  all_goals exact Except.noConfusion h

/-- C2 witness: six medium-priority suggestions with weights 1..6 come
back ordered and truncated to 5. -/
theorem c2_suggestion_ordering_witness :
    ∃ ov, build_contextual_overlay ⟨[], 1⟩
        [c2sugg 1, c2sugg 2, c2sugg 3, c2sugg 4, c2sugg 5, c2sugg 6] [] =
        .ok ov ∧
      ∃ sorted : List Val,
        List.Perm [c2sugg 1, c2sugg 2, c2sugg 3, c2sugg 4, c2sugg 5, c2sugg 6]
          sorted ∧
        dictGet ov "suggestions" = some (.vList (sorted.take 5)) ∧
        sorted.Pairwise suggKeyLE := by
  rcases hov : build_contextual_overlay ⟨[], 1⟩
      [c2sugg 1, c2sugg 2, c2sugg 3, c2sugg 4, c2sugg 5, c2sugg 6] []
    with e | ov
  · exact Except.noConfusion hov
  · exact ⟨ov, rfl, c2_suggestion_ordering ⟨[], 1⟩ _ [] ov hov⟩

theorem foldl_append_flatten (f : Val → List Val) (l : List Val)
    (init : List Val) :
    l.foldl (fun acc r => acc ++ f r) init = init ++ (l.map f).flatten := by
  induction l generalizing init with
  | nil => simp
  | cons x xs ih => simp [List.foldl_cons, ih (init ++ f x)]

/-- C8 (amended): per-rule fault isolation, except that a raising rule
keeps whatever suggestions it appended before the exception (none when
the condition itself raises).  Whatever exception a rule raises,
`evaluate_rules` still returns `.ok`, each rule's contribution is
computed independently, and the rules before and after the faulty one
contribute exactly what they would alone. -/
theorem c8_rule_fault_isolation (pre post : List Val) (bad tpl : Val)
    (ms : Mindscape) (ctx : Dict) (now : PyTime) (e : PyErr)
    (hbad : (process_rule bad tpl ms.traits ctx now).2 = some e) :
    evaluate_rules (mkConfig (pre ++ bad :: post) tpl) ms ctx now =
      .ok ((pre.map (fun r => (process_rule r tpl ms.traits ctx now).1)).flatten
        ++ (process_rule bad tpl ms.traits ctx now).1
        ++ (post.map
            (fun r => (process_rule r tpl ms.traits ctx now).1)).flatten) := by
  rw [show evaluate_rules (mkConfig (pre ++ bad :: post) tpl) ms ctx now =
    .ok ((pre ++ bad :: post).foldl
      (fun acc rule => acc ++ (process_rule rule tpl ms.traits ctx now).1) [])
    from rfl]
  rw [foldl_append_flatten]
  simp

/-- C8 witness: between two healthy rules, a rule whose condition
raises `KeyError` contributes nothing, and both neighbours still
contribute their suggestion. -/
theorem c8_rule_fault_isolation_witness :
    (process_rule c8condErrorRule c8templates ([] : Dict) []
        ⟨10, "Monday"⟩).2 = some .keyError ∧
    evaluate_rules
        (mkConfig [c8okRule "r1" "tpl1", c8condErrorRule, c8okRule "r2" "tpl1"]
          c8templates) ⟨[], 1⟩ [] ⟨10, "Monday"⟩ =
      .ok (([c8okRule "r1" "tpl1"].map
          (fun r =>
            (process_rule r c8templates ([] : Dict) [] ⟨10, "Monday"⟩).1)).flatten
        ++ (process_rule c8condErrorRule c8templates ([] : Dict) []
            ⟨10, "Monday"⟩).1
        ++ ([c8okRule "r2" "tpl1"].map
          (fun r =>
            (process_rule r c8templates ([] : Dict) []
              ⟨10, "Monday"⟩).1)).flatten) :=
  ⟨rfl, c8_rule_fault_isolation [c8okRule "r1" "tpl1"] [c8okRule "r2" "tpl1"]
    c8condErrorRule c8templates ⟨[], 1⟩ [] ⟨10, "Monday"⟩ .keyError rfl⟩
